import Mathlib

/-!
Verification of the classification-and-routing pipeline of the
imap_smart_sorter backend against its specification.

The Python sources under src/backend are embedded shallowly:
pure functions become Lean functions over `String`, `ℚ` and `List`;
floating point arithmetic is modelled by the rationals (no rounding);
JSON payloads become the inductive `JVal`; stateful controller code
becomes explicit state passing.  External collaborators (difflib,
the float() conversion, the clock) are passed in as parameters.
Each definition carries a doc comment naming the source function
it translates.
-/

/-! ### Python string primitives

Helpers reproducing the behaviour of the Python string operations and
the concrete regular expressions used in src/backend.  Characters are
handled over `List Char`; only the alphabet actually reachable in the
sources (ASCII plus the German letters appearing in the regexes) is
given special treatment, matching what CPython does on these inputs. -/

/-- Lower-casing of a single character as Python `str.lower` does on the
alphabet used by the sources (ASCII letters and the umlauts that occur
in the character classes of classifier.py). -/
def pyLowerChar (c : Char) : Char :=
  if 'A' ≤ c ∧ c ≤ 'Z' then Char.ofNat (c.toNat + 32)
  else if c = 'Ä' then 'ä'
  else if c = 'Ö' then 'ö'
  else if c = 'Ü' then 'ü'
  else c

/-- Upper-casing of a single character (Python `str.upper`) on the same
alphabet. -/
def pyUpperChar (c : Char) : Char :=
  if 'a' ≤ c ∧ c ≤ 'z' then Char.ofNat (c.toNat - 32)
  else if c = 'ä' then 'Ä'
  else if c = 'ö' then 'Ö'
  else if c = 'ü' then 'Ü'
  else c

/-- Python `str.lower`. -/
def pyLower (s : String) : String := String.mk (s.toList.map pyLowerChar)

/-- Python `str.capitalize`: first character upper-cased, rest lower-cased. -/
def pyCapitalize (s : String) : String :=
  match s.toList with
  | [] => ""
  | c :: rest => String.mk (pyUpperChar c :: rest.map pyLowerChar)

/-- Python `str.upper`. -/
def pyUpper (s : String) : String := String.mk (s.toList.map pyUpperChar)

/-- Characters treated as whitespace by Python `str.strip` and by the
regex class `\s` on the inputs reachable here. -/
def isPySpace (c : Char) : Bool :=
  c = ' ' || c = '\t' || c = '\n' || c = '\r' || c = '\x0b' || c = '\x0c'

/-- Python `str.strip(chars)`: drop characters satisfying `p` from both
ends. -/
def pyStripChars (p : Char → Bool) (s : String) : String :=
  String.mk (((s.toList.dropWhile p).reverse.dropWhile p).reverse)

/-- Python `str.strip()` (whitespace strip). -/
def pyStrip (s : String) : String := pyStripChars isPySpace s

/-- Python `str.lstrip()`. -/
def pyLstrip (s : String) : String := String.mk (s.toList.dropWhile isPySpace)

/-- Python slicing `s[:n]`. -/
def pyTake (n : Nat) (s : String) : String := String.mk (s.toList.take n)

/-- Python slicing `s[n:]`. -/
def pyDrop (n : Nat) (s : String) : String := String.mk (s.toList.drop n)

/-- Python substring membership `needle in hay`. -/
def pyIn (needle hay : String) : Bool := decide (needle.toList <:+: hay.toList)

/-- Python `str.startswith`. -/
def pyStartsWith (pre s : String) : Bool := pre.toList.isPrefixOf s.toList

/-- Core of `re.split` with a pattern of the shape `[class]+`: the
string is cut at every maximal run of class characters and the (possibly
empty) pieces between the runs are kept, exactly as `re.split` does. -/
def reSplitRuns (isSep : Char → Bool) : List Char → List (List Char)
  | [] => [[]]
  | c :: cs =>
    if isSep c then
      match cs with
      | c' :: _ =>
        if isSep c' then reSplitRuns isSep cs
        else [] :: reSplitRuns isSep cs
      | [] => [] :: reSplitRuns isSep cs
    else
      match reSplitRuns isSep cs with
      | t :: ts => (c :: t) :: ts
      | [] => [[c]]

/-- String-valued wrapper around `reSplitRuns`. -/
def pyReSplit (isSep : Char → Bool) (s : String) : List String :=
  (reSplitRuns isSep s.toList).map String.mk

/-- First element of `re.split(pattern, s, maxsplit=1)` for a `[class]+`
pattern: everything before the first separator character. -/
def pyReSplitFirst (isSep : Char → Bool) (s : String) : String :=
  String.mk (s.toList.takeWhile (fun c => !isSep c))

/-- Python `str.split(sep)` for a single-character separator: no run
collapsing, empty pieces kept. -/
def pySplitOn (sep : Char) : List Char → List (List Char)
  | [] => [[]]
  | c :: cs =>
    let r := pySplitOn sep cs
    if c = sep then [] :: r
    else
      match r with
      | t :: ts => (c :: t) :: ts
      | [] => [[c]]

/-- `re.sub` with a pattern of the shape `[class]+` and a one-character
replacement: every maximal run of class characters becomes one `r`. -/
def reSubRuns (isSep : Char → Bool) (r : Char) : List Char → List Char
  | [] => []
  | c :: cs =>
    if isSep c then
      match cs with
      | c' :: _ =>
        if isSep c' then reSubRuns isSep r cs
        else r :: reSubRuns isSep r cs
      | [] => [r]
    else c :: reSubRuns isSep r cs

/-- `re.sub` deleting every character of a class (replacement `""`). -/
def reSubDelete (bad : Char → Bool) (s : String) : String :=
  String.mk (s.toList.filter (fun c => !bad c))

/-- Python `"sep".join(items)`. -/
def pyJoin (sep : String) (items : List String) : String :=
  String.intercalate sep items

/-- Python `dict.fromkeys` based deduplication: keep the first occurrence
of every element, preserving order. -/
def pyDedup : List String → List String
  | [] => []
  | x :: xs => x :: (pyDedup xs).filter (fun y => y ≠ x)

/-- Truthiness of an optional string in Python: `None` and `""` are
falsy. -/
def pyTruthy : Option String → Bool
  | none => false
  | some s => s ≠ ""

/-- Python `a or b` on optional strings (`None`/`""` falsy). -/
def pyOrStr (a b : Option String) : Option String :=
  if pyTruthy a then a else b


/-! ### JSON values

Payloads returned by the chat collaborator are JSON; `JVal` is their
shallow embedding.  `null` doubles for the Python `None` that
`dict.get` returns for an absent key, exactly as in the sources where
the two are never distinguished. -/

/-- A JSON value as handled by classifier.py when parsing LLM replies.
Numbers are modelled by `ℚ` (no floating point rounding). -/
inductive JVal where
  | null : JVal
  | bool (b : Bool) : JVal
  | num (q : ℚ) : JVal
  | str (s : String) : JVal
  | arr (items : List JVal) : JVal
  | obj (fields : List (String × JVal)) : JVal

/-- Python `payload.get(key)`: the value of the first matching key, or
`None` when the key is absent. -/
def jGet (v : JVal) (key : String) : JVal :=
  match v with
  | .obj fields =>
    match fields.find? (fun kv => kv.1 = key) with
    | some kv => kv.2
    | none => .null
  | _ => .null

/-- Python `key in payload` for a dict payload. -/
def jHasKey (v : JVal) (key : String) : Bool :=
  match v with
  | .obj fields => fields.any (fun kv => kv.1 = key)
  | _ => false

/-- Python truthiness of a JSON value (`None`, `False`, `0`, `""`,
`[]` and `{}` are falsy). -/
def jTruthy : JVal → Bool
  | .null => false
  | .bool b => b
  | .num q => q ≠ 0
  | .str s => s ≠ ""
  | .arr items => !items.isEmpty
  | .obj fields => !fields.isEmpty

/-- Python `a or b` on JSON values. -/
def jOr (a b : JVal) : JVal := if jTruthy a then a else b

/-- Python `value is not None`. -/
def jIsNotNone : JVal → Bool
  | .null => false
  | _ => true

/-! ### Catalog configuration (configuration.py)

The folder-template hierarchy from llm_config.json, as parsed by
configuration.py.  The loader strips names and drops empty ones, so
every `name` below is assumed non-empty and stripped where theorems
need it. -/

/-- A node of the folder-template tree: `FolderTemplate` at top level
and `FolderChild` below, both reduced to the name/children shape used
by the path helpers (descriptions never influence the pipeline). -/
inductive FolderNode where
  | mk (name : String) (children : List FolderNode)

/-- Name accessor of `FolderNode`. -/
def FolderNode.name : FolderNode → String
  | .mk n _ => n

/-- Children accessor of `FolderNode`. -/
def FolderNode.children : FolderNode → List FolderNode
  | .mk _ c => c

/-- Translation of `configuration._iter_child_paths`: depth-first listing
of slash-joined descendant paths below `pre`. -/
def iter_child_paths (pre : String) : List FolderNode → List String
  | [] => []
  | .mk name children :: rest =>
    let path := if pre ≠ "" then pre ++ "/" ++ name else name
    (path :: iter_child_paths path children) ++ iter_child_paths pre rest

/-- Translation of `configuration.folder_catalog_paths` (no limit):
template names followed by their descendant paths, deduplicated
preserving order, empty paths dropped. -/
def folder_catalog_paths (templates : List FolderNode) : List String :=
  let paths := templates.flatMap
    (fun t => t.name :: iter_child_paths t.name t.children)
  pyDedup (paths.filter (fun p => p ≠ ""))

/-- Translation of `configuration.top_level_folder_names`. -/
def top_level_folder_names (templates : List FolderNode) : List String :=
  templates.map FolderNode.name

/-- Translation of `configuration.find_top_level_for_label`: resolve a
label to the template whose name or direct child name matches it
case-insensitively. -/
def find_top_level_for_label (templates : List FolderNode)
    (label : Option String) : Option String :=
  match label with
  | none => none
  | some raw =>
    let needle := pyLower (pyStrip raw)
    if needle = "" then none
    else
      templates.findSome? (fun t =>
        if pyLower t.name = needle then some t.name
        else if t.children.any (fun c => pyLower c.name = needle) then some t.name
        else none)

/-- Translation of `configuration.ensure_top_level_parent`: force the
first path segment onto a configured top-level name (exact match, then
substring match in either direction, else keep the first segment). -/
def ensure_top_level_parent (templates : List FolderNode)
    (path : Option String) : Option String :=
  let top_levels := top_level_folder_names templates
  if top_levels = [] then path
  else
    match path with
    | none => top_levels.head?
    | some p =>
      if p = "" then top_levels.head?
      else
        let first_segment := pyStrip (String.mk (p.toList.takeWhile (fun c => c ≠ '/')))
        if first_segment = "" then top_levels.head?
        else
          match top_levels.find? (fun cand => pyLower cand = pyLower first_segment) with
          | some cand => some cand
          | none =>
            match top_levels.find? (fun cand =>
                pyIn (pyLower first_segment) (pyLower cand)
                || pyIn (pyLower cand) (pyLower first_segment)) with
            | some cand => some cand
            | none => some first_segment

/-- Configuration and external collaborators of the classifier, gathered
in one record.  `templates` is the loaded catalog; `imapInbox`,
`maxSuggestions` and `minNewFolderScore` are `S.IMAP_INBOX`,
`S.MAX_SUGGESTIONS` and `S.MIN_NEW_FOLDER_SCORE` from settings.py.
`minMatchScore` is `S.MIN_MATCH_SCORE`.  Modelled from the spec: the
field `MIN_MATCH_SCORE` is read throughout classifier.py and
imap_worker.py but its declaration is not part of the sources under
src/ (settings.py lacks it); the spec calls it the configured match
threshold on the 0 to 100 rating scale, which is how it is used here.
`ratio` is `difflib.SequenceMatcher(None, a, b).ratio()` and `pyFloat`
is the `float(...)` conversion, both external to the repository and
therefore parameters of the embedding. -/
structure Config where
  templates : List FolderNode
  imapInbox : String
  minMatchScore : ℚ
  minNewFolderScore : ℚ
  maxSuggestions : Nat
  ratio : String → String → ℚ
  pyFloat : JVal → Option ℚ

/-- Catalog paths of a configuration. -/
def Config.catalogPaths (cfg : Config) : List String :=
  folder_catalog_paths cfg.templates

/-! ### Score normalisation (classifier.py lines 210 to 220) -/

/-- Translation of `classifier._normalise_score_value`.  The Python
function first runs `float(raw)`; the argument here is the result of
that conversion, `none` when it raised (non-numeric input).  Returns
the `(score, rating)` pair on the 0 to 1 and 0 to 100 scales. -/
def normalise_score_value (raw : Option ℚ) : ℚ × ℚ :=
  match raw with
  | none => (0, 0)
  | some value =>
    if 1 < value then
      let rating := max 0 (min value 100)
      (rating / 100, rating)
    else
      let clamped := max 0 (min value 1)
      (clamped, clamped * 100)


/-! ### Cosine similarity (classifier.py lines 128 to 133) -/

/-- Translation of `classifier._cosine`: cosine similarity of two
vectors, `0.0` when either vector is empty or the lengths differ, and
`0.0` when the denominator is zero.  Vectors are lists of reals (the
embedding of Python floats); `x ** 0.5` is the real square root. -/
noncomputable def cosine (a b : List ℝ) : ℝ :=
  if a = [] ∨ b = [] ∨ a.length ≠ b.length then 0
  else
    let num := (List.zipWith (· * ·) a b).sum
    let den := Real.sqrt ((a.map (fun x => x * x)).sum) *
      Real.sqrt ((b.map (fun y => y * y)).sum)
    if den = 0 then 0 else num / den

/-! ### Catalog canonicalization (classifier.py lines 223 to 337) -/

/-- Character class of the signature cleanup regex
`[^0-9a-zäöüß]+` in `classifier._catalog_signature`. -/
def isSignatureChar (c : Char) : Bool :=
  ('0' ≤ c && c ≤ '9') || ('a' ≤ c && c ≤ 'z') || c = 'ä' || c = 'ö' || c = 'ü' || c = 'ß'

/-- Translation of `classifier._split_catalog_segments`: collapse
backslash runs to `/`, split on `/`, strip the pieces and drop empty
ones. -/
def split_catalog_segments (value : String) : List String :=
  let normalised := reSubRuns (fun c => c = '\\') '/' value.toList
  (((pySplitOn '/' normalised).map (fun seg => pyStrip (String.mk seg))).filter
    (fun s => s ≠ ""))

/-- Translation of `classifier._catalog_signature`.  The splitting
pattern in the source is the raw string `[\\s/]+`, whose character
class consists of the backslash, the letter `s` and the slash (the
doubled backslash is one escaped backslash, not part of a `\s`
escape); the embedding reproduces that class literally. -/
def catalog_signature (value : String) : String :=
  let parts := pyReSplit (fun c => c = '\\' || c = 's' || c = '/') (pyLower value)
  let tokens := (parts.map (reSubDelete (fun c => !isSignatureChar c))).filter
    (fun t => t ≠ "" && t ≠ "inbox")
  pyJoin " " tokens

/-- Translation of `classifier._catalog_index`: every catalog path with
its normalized signature. -/
def catalog_index (cfg : Config) : List (String × String) :=
  cfg.catalogPaths.map (fun p => (p, catalog_signature p))

/-- State of the seen-set driven variant generator inside
`classifier._match_catalog_path._iter_variants`: lower-cased seen keys
and emitted variants. -/
def addVariant (st : List String × List String) (v : String) :
    List String × List String :=
  if v = "" || st.1.contains (pyLower v) then st
  else (st.1 ++ [pyLower v], st.2 ++ [v])

/-- Translation of `_iter_variants` inside
`classifier._match_catalog_path`: the raw name itself, the name with
leading inbox-alias segments removed, and every proper suffix of the
segment list, deduplicated case-insensitively in emission order. -/
def iter_variants (cfg : Config) (raw : String) : List String :=
  let segments := split_catalog_segments raw
  if segments.isEmpty then []
  else
    let inboxValue := pyLower (pyStrip cfg.imapInbox)
    let aliases := "inbox" :: (if inboxValue ≠ "" then [inboxValue] else [])
    let st0 := addVariant ([], []) (pyJoin "/" segments)
    let trimmed := segments.dropWhile (fun seg => aliases.contains (pyLower (pyStrip seg)))
    let st1 :=
      if !trimmed.isEmpty && trimmed ≠ segments then
        addVariant st0 (pyJoin "/" trimmed)
      else st0
    let st2 := ((List.range segments.length).drop 1).foldl
      (fun st start => addVariant st (pyJoin "/" (segments.drop start))) st1
    st2.2

/-- Translation of `classifier._match_catalog_path`: exact
case-insensitive path match scores 100, otherwise the best
`SequenceMatcher` ratio between normalized signatures over all
variants, early-returning 100 on an exact variant hit or a ratio of at
least 0.999, and discarding results below the match threshold. -/
def match_catalog_path (cfg : Config) (name : String)
    (index : List (String × String)) : Option (String × ℚ) :=
  let candidate := pyStrip name
  if candidate = "" then none
  else if index.isEmpty then none
  else
    let lowered := pyLower candidate
    match index.find? (fun pr => pyLower pr.1 = lowered) with
    | some pr => some (pr.1, 100)
    | none =>
      let scan := (iter_variants cfg candidate).foldl
        (fun acc variant =>
          match acc with
          | .inl result => .inl result
          | .inr best =>
            let signature := catalog_signature variant
            if signature = "" then .inr best
            else
              index.foldl
                (fun acc2 pr =>
                  match acc2 with
                  | .inl r => .inl r
                  | .inr (bestPath, bestScore) =>
                    if pr.2 = "" then .inr (bestPath, bestScore)
                    else if pyLower pr.1 = pyLower variant then .inl (pr.1, (100 : ℚ))
                    else
                      let r := cfg.ratio signature pr.2
                      if bestScore < r then
                        if (999 : ℚ)/1000 ≤ r then .inl (pr.1, 100)
                        else .inr (some pr.1, r)
                      else .inr (bestPath, bestScore))
                (.inr best))
        (Sum.inr ((none : Option String), (0 : ℚ)))
      match scan with
      | .inl result => some result
      | .inr (none, _) => none
      | .inr (some bestPath, bestScore) =>
        let rating := max 0 (min (bestScore * 100) 100)
        if rating < cfg.minMatchScore then none else some (bestPath, rating)

/-! ### Ranked candidate canonicalization (classifier.py lines 880 to 935) -/

/-- A ranked candidate dict as passed around classifier.py; every key
is optional because the cleaning step may drop fields. -/
structure RankedEntry where
  name : Option String
  score : Option ℚ
  rating : Option ℚ
  reason : Option String
deriving DecidableEq

/-- The `cleaned` dict built for each of the first `MAX_SUGGESTIONS`
entries in `classifier._canonicalize_ranked`: stripped name, clamped
score and rating, stripped non-empty reason; `none` when the dict
would be empty. -/
def cleanEntry (entry : RankedEntry) : Option RankedEntry :=
  let cleaned : RankedEntry :=
    { name := entry.name.map pyStrip
      score := entry.score.map (fun s => max 0 (min s 1))
      rating := entry.rating.map (fun r => max 0 (min r 100))
      reason := entry.reason.bind
        (fun r => if pyStrip r ≠ "" then some (pyStrip r) else none) }
  if cleaned.name.isSome || cleaned.score.isSome || cleaned.rating.isSome
      || cleaned.reason.isSome then
    some cleaned
  else none

/-- Lookup in an insertion-ordered Python dict modelled as an
association list. -/
def assocFind {α : Type} (l : List (String × α)) (k : String) : Option α :=
  (l.find? (fun kv => kv.1 = k)).map (fun kv => kv.2)

/-- Assignment `d[k] = v` on an insertion-ordered Python dict: replace
in place when the key exists, append otherwise. -/
def assocSet {α : Type} : List (String × α) → String → α →
    List (String × α)
  | [], k, v => [(k, v)]
  | kv :: rest, k, v =>
    if kv.1 = k then (k, v) :: rest else kv :: assocSet rest k v

/-- Sort key `row.get("rating", 0.0)` of `_canonicalize_ranked`. -/
def ratingKey (e : RankedEntry) : ℚ := e.rating.getD 0

/-- One insertion step of the stable descending sort modelling Python
`sorted(..., reverse=True)`. -/
def insertByRatingDesc (x : RankedEntry) : List RankedEntry → List RankedEntry
  | [] => [x]
  | y :: ys =>
    if ratingKey y ≤ ratingKey x then x :: y :: ys
    else y :: insertByRatingDesc x ys

/-- Stable descending sort by rating, the embedding of Python
`sorted(values, key=rating, reverse=True)` (equal keys keep their
original order, as Python sorting is stable). -/
def sortByRatingDesc : List RankedEntry → List RankedEntry
  | [] => []
  | x :: xs => insertByRatingDesc x (sortByRatingDesc xs)

/-- The body of the `for entry in items` loop of
`classifier._canonicalize_ranked` (lines 903 to 931): map a named
entry onto its canonical catalog path, keep the highest rating per
canonical path, preserving first-insertion order. -/
def canonicalize_step (cfg : Config) (index : List (String × String))
    (acc : List (String × RankedEntry)) (entry : RankedEntry) :
    List (String × RankedEntry) :=
  match entry.name with
  | none => acc
  | some n =>
    if pyStrip n = "" then acc
    else
      match match_catalog_path cfg n index with
      | none => acc
      | some (canonical, match_rating) =>
        let rating_raw : Option ℚ :=
          match entry.rating with
          | some r => some r
          | none => entry.score.map (fun s => s * 100)
        let rating_value := max 0 (min (rating_raw.getD match_rating) 100)
        let final_rating := max rating_value match_rating
        let cleaned_entry : RankedEntry :=
          { name := some canonical
            score := some (final_rating / 100)
            rating := some final_rating
            reason := entry.reason.bind
              (fun r => if pyStrip r ≠ "" then some (pyStrip r) else none) }
        match assocFind acc canonical with
        | none => assocSet acc canonical cleaned_entry
        | some existing =>
          if existing.rating.getD 0 < final_rating then
            assocSet acc canonical cleaned_entry
          else acc

/-- Translation of `classifier._canonicalize_ranked` (main body); the
loop body is `canonicalize_step` above. -/
def canonicalize_ranked (cfg : Config) (items : List RankedEntry) :
    List RankedEntry :=
  if items.isEmpty then []
  else
    let index := catalog_index cfg
    let trimmed := (items.take cfg.maxSuggestions).filterMap cleanEntry
    if index.isEmpty then trimmed
    else
      let normalised := items.foldl (canonicalize_step cfg index) []
      let ordered := sortByRatingDesc (normalised.map (fun kv => kv.2))
      if !ordered.isEmpty then ordered.take cfg.maxSuggestions else trimmed

/-- Translation of `classifier._fallback_ranked`: normalise the
embedding scores of the leading candidates and canonicalize them (the
final `if canonical: return canonical; return []` is the identity on
lists). -/
def fallback_ranked (cfg : Config) (ranked : List (String × ℚ)) :
    List RankedEntry :=
  let raw_items := (ranked.take cfg.maxSuggestions).map
    (fun pr =>
      let nr := normalise_score_value (some pr.2)
      ({ name := some pr.1, score := some nr.1, rating := some nr.2,
         reason := none } : RankedEntry))
  canonicalize_ranked cfg raw_items

/-! ### Tag parsing (classifier.py lines 938 to 1147) -/

/-- A tag slot from the catalog configuration
(`configuration.TagSlot`). -/
structure TagSlot where
  name : String
  aliases : List String
  description : String
  options : List String
deriving DecidableEq

/-- Python `str(value)` on the JSON scalars that reach it in the tag
pipeline.  Container values never reach a point where their precise
rendering matters for any theorem below; they are rendered coarsely. -/
def pyStr : JVal → String
  | .null => "None"
  | .bool b => if b then "True" else "False"
  | .num q => if q.den = 1 then toString q.num else toString q
  | .str s => s
  | .arr _ => "[...]"
  | .obj _ => "{...}"

/-- Character class kept by `_normalise_tag_word`
(`[^0-9A-Za-zÄÖÜäöüß+-]` is removed). -/
def isTagWordChar (c : Char) : Bool :=
  ('0' ≤ c && c ≤ '9') || ('A' ≤ c && c ≤ 'Z') || ('a' ≤ c && c ≤ 'z')
  || c = 'Ä' || c = 'Ö' || c = 'Ü' || c = 'ä' || c = 'ö' || c = 'ü' || c = 'ß'
  || c = '+' || c = '-'

/-- Translation of `classifier._normalise_tag_word`: `None` stays
`None`; otherwise take the text before the first `[\s,;/|]+` run, drop
characters outside the tag alphabet, strip `-_+` from the ends and cap
at 32 characters, returning `None` when nothing is left. -/
def normalise_tag_word (raw : JVal) : Option String :=
  match raw with
  | .null => none
  | _ =>
    let candidate := pyStrip (pyStr raw)
    if candidate = "" then none
    else
      let token := pyReSplitFirst
        (fun c => isPySpace c || c = ',' || c = ';' || c = '/' || c = '|') candidate
      let cleaned := reSubDelete (fun c => !isTagWordChar c) token
      let cleaned := pyStripChars (fun c => c = '-' || c = '_' || c = '+') cleaned
      let final := pyTake 32 cleaned
      if final = "" then none else some final

/-- The fixed placeholder token set `_PLACEHOLDER_TOKENS` of
classifier.py. -/
def placeholderTokens : List String :=
  ["NAME", "ORT", "PLACEHOLDER", "PLATZHALTER", "SAMPLE", "BEISPIEL",
   "VALUE", "WERT", "TODO", "TBD"]

/-- The numeric placeholder token set `_PLACEHOLDER_NUMERIC_TOKENS` of
classifier.py. -/
def placeholderNumericTokens : List String := ["YYYY", "YY", "MM", "TT", "DD"]

/-- Translation of `classifier._has_placeholder_token` (the keyword
argument `ignore_prefix` is `skipFirst` here): split the word on
`[-_/]+`, optionally drop the first segment, and test the upper-cased
segments against the placeholder token sets. -/
def has_placeholder_token (skipFirst : Bool) (word : String) : Bool :=
  if word = "" then false
  else
    let segments := (pyReSplit (fun c => c = '-' || c = '_' || c = '/') word).filter
      (fun s => s ≠ "")
    let segments := if skipFirst && !segments.isEmpty then segments.tail else segments
    segments.any (fun seg =>
      placeholderTokens.contains (pyUpper seg)
      || placeholderNumericTokens.contains (pyUpper seg))

/-- Translation of `_slot_slug` inside `classifier._parse_tags` for an
actual `TagSlot` (the only shape it receives there): slug of the first
alias or of the slot name, with non-alphanumeric runs collapsed to
dashes. -/
def slot_slug (slot : TagSlot) : String :=
  let base := match slot.aliases with
    | a :: _ => a
    | [] => slot.name
  let slug := String.mk (reSubRuns
    (fun c => !(('0' ≤ c && c ≤ '9') || ('A' ≤ c && c ≤ 'Z') || ('a' ≤ c && c ≤ 'z')))
    '-' (pyLower (pyStrip base)).toList)
  let slug := pyStripChars (fun c => c = '-') slug
  if slug = "" then "tag" else slug

/-- Translation of `_resolve_slot` inside `classifier._parse_tags`:
first slot whose name or alias equals the key case-insensitively after
stripping. -/
def resolve_slot (slots : List TagSlot) (key : String) : Option TagSlot :=
  let lowered := pyLower (pyStrip key)
  slots.find? (fun slot =>
    (slot.name :: slot.aliases).any
      (fun cand => pyLower (pyStrip cand) = lowered))

/-- Translation of `_resolve_option` inside `classifier._parse_tags`:
exact case-insensitive option match (later options shadow earlier ones
with the same lower-case form, as in the dict comprehension), then
normalized-word match (first option wins). -/
def resolve_option (slot : TagSlot) (value : String) : Option String :=
  if value = "" then none
  else
    let candidate := pyStrip value
    if candidate = "" then none
    else
      let lowered := pyLower candidate
      match slot.options.reverse.find? (fun opt => pyLower opt = lowered) with
      | some opt => some opt
      | none =>
        let normalised := pyLower ((normalise_tag_word (.str candidate)).getD "")
        if normalised = "" then none
        else
          slot.options.find?
            (fun opt => pyLower ((normalise_tag_word (.str opt)).getD "") = normalised)

/-- Translation of `_extract_extras` inside `classifier._parse_tags`:
normalized words from a list or string value, deduplicated, with
placeholder-bearing words dropped (first segment ignored). -/
def extract_extras (value : JVal) : List String :=
  match value with
  | .arr items =>
    items.foldl
      (fun extras item =>
        match normalise_tag_word item with
        | some word =>
          if !extras.contains word && !has_placeholder_token true word then
            extras ++ [word]
          else extras
        | none => extras)
      []
  | .str s =>
    match normalise_tag_word (.str s) with
    | some word => if !has_placeholder_token true word then [word] else []
    | none => []
  | _ => []

/-- object key set that routes a payload entry to the extras bucket in
`_parse_tags`. -/
def extrasKeys : List String := ["extras", "kontext", "context", "additional", "more"]

/-- Label and score extraction for one dict-valued slot entry in
`_parse_tags`. -/
def slotEntryLabelScore (value : JVal) : JVal × JVal :=
  match value with
  | .obj _ =>
    let label := jOr (jGet value "value")
      (jOr (jGet value "label") (jOr (jGet value "name") (jGet value "tag")))
    let score := jGet value "score"
    let score := if jIsNotNone score then score
      else if jHasKey value "rating" then jGet value "rating"
      else jGet value "confidence"
    (label, score)
  | _ => (value, .null)

/-- Append loop over extras with the running cap check of
`_parse_tags` (`break` once `max_total` is reached). -/
def appendExtras (maxTotal : Nat) : List String → List String → List String
  | ordered, [] => ordered
  | ordered, extra :: rest =>
    let ordered :=
      if extra ≠ "" && !ordered.contains extra then ordered ++ [extra] else ordered
    if maxTotal ≤ ordered.length then ordered
    else appendExtras maxTotal ordered rest

/-- Fallback collection loop of `_parse_tags` over a list payload
(dedup, placeholder filter, cap). -/
def fallbackWords (maxTotal : Nat) : List String → List JVal → List String
  | acc, [] => acc
  | acc, item :: rest =>
    match normalise_tag_word item with
    | some word =>
      if !acc.contains word && !has_placeholder_token true word then
        let acc := acc ++ [word]
        if maxTotal ≤ acc.length then acc else fallbackWords maxTotal acc rest
      else fallbackWords maxTotal acc rest
    | none => fallbackWords maxTotal acc rest

/-- Translation of `classifier._parse_tags`.  `slots` is
`configuration.get_tag_slots()`, `maxTotal` is
`configuration.max_tag_total()` and `threshold` is
`float(S.MIN_MATCH_SCORE or 0)`; `pyFloat` embeds the `float(...)`
conversion applied to scores.  Returns the ordered tag list. -/
def parse_tags (cfg : Config) (slots : List TagSlot) (maxTotal : Nat)
    (payload : JVal) (extrasPayload : JVal) : List String :=
  let threshold := cfg.minMatchScore
  let stage1 : List (Option TagSlot × JVal × JVal) × JVal :=
    match payload with
    | .obj fields =>
      let start : List (Option TagSlot × JVal × JVal) × JVal := ([], extrasPayload)
      let looped := fields.foldl
        (fun st kv =>
          let (cands, extrasCand) := st
          let lowered := pyLower (pyStrip kv.1)
          if extrasKeys.contains lowered then (cands, kv.2)
          else
            match resolve_slot slots kv.1 with
            | none => (cands, extrasCand)
            | some slot =>
              let ls := slotEntryLabelScore kv.2
              (cands ++ [(some slot, ls.1, ls.2)], extrasCand))
        start
      let lowerMap := fields.map (fun kv => (pyLower (pyStrip kv.1), kv.2))
      let extrasCand :=
        if !jTruthy looped.2 then
          match extrasKeys.findSome? (fun key =>
              (lowerMap.reverse.find? (fun kv => kv.1 = key)).map (fun kv => kv.2)) with
          | some v => v
          | none => looped.2
        else looped.2
      (looped.1, extrasCand)
    | .arr items =>
      let cands := items.foldl
        (fun cands item =>
          match item with
          | .obj _ =>
            let slotKey := jOr (jGet item "slot") (jOr (jGet item "name") (jGet item "key"))
            let slot :=
              if jTruthy slotKey then resolve_slot slots (pyStr slotKey) else none
            match slot with
            | none => cands
            | some s =>
              let label := jOr (jGet item "value") (jOr (jGet item "label") (jGet item "tag"))
              let score := jGet item "score"
              let score := if jIsNotNone score then score
                else if jHasKey item "rating" then jGet item "rating"
                else jGet item "confidence"
              cands ++ [(some s, label, score)]
          | _ => cands ++ [(none, item, .null)])
        []
      (cands, extrasPayload)
    | .str s => ([(none, .str s, .null)], extrasPayload)
    | _ => ([], extrasPayload)
  let slotCandidates := stage1.1
  let extrasCandidate := stage1.2
  let stage2 : List (String × String × ℚ) × List String := slotCandidates.foldl
    (fun st cand =>
      let (assignments, extras) := st
      let (slotOpt, label, score) := cand
      let valueWord := normalise_tag_word label
      match slotOpt with
      | none =>
        match valueWord with
        | some word =>
          if !extras.contains word && !has_placeholder_token true word then
            (assignments, extras ++ [word])
          else (assignments, extras)
        | none => (assignments, extras)
      | some slot =>
        let option := match label with
          | .str s => resolve_option slot s
          | _ => none
        match option with
        | none => (assignments, extras)
        | some opt =>
          let scoreArg : Option ℚ :=
            if jIsNotNone score then cfg.pyFloat score else some threshold
          let rating := (normalise_score_value scoreArg).2
          if rating < threshold then (assignments, extras)
          else
            let valueSlug := pyLower ((normalise_tag_word (.str opt)).getD opt)
            let tagValue := pyStripChars (fun c => c = '-')
              (slot_slug slot ++ "-" ++ valueSlug)
            if tagValue = "" then (assignments, extras)
            else if has_placeholder_token true tagValue then (assignments, extras)
            else
              match assocFind assignments slot.name with
              | some previous =>
                if rating ≤ previous.2 then (assignments, extras)
                else (assocSet assignments slot.name (tagValue, rating), extras)
              | none => (assocSet assignments slot.name (tagValue, rating), extras))
    ([], [])
  let assignments := stage2.1
  let extras := stage2.2
  let extras :=
    if jIsNotNone extrasCandidate then extras ++ extract_extras extrasCandidate
    else extras
  let orderedTags := slots.foldl
    (fun ordered slot =>
      match assocFind assignments slot.name with
      | some assigned =>
        if assigned.1 ≠ "" && !ordered.contains assigned.1 then ordered ++ [assigned.1]
        else ordered
      | none => ordered)
    []
  let orderedTags := appendExtras maxTotal orderedTags extras
  if !orderedTags.isEmpty then orderedTags.take maxTotal
  else
    let normalised : List String :=
      match payload with
      | .arr items => fallbackWords maxTotal [] items
      | .str s =>
        match normalise_tag_word (.str s) with
        | some word => if !has_placeholder_token true word then [word] else []
        | none => []
      | _ => []
    let normalised :=
      if jTruthy extrasCandidate then
        (extract_extras extrasCandidate).foldl
          (fun acc word =>
            if word ≠ "" && !acc.contains word then acc ++ [word] else acc)
          normalised
      else normalised
    let slotCount := slots.length
    let normalised :=
      if normalised.length < slotCount then
        normalised ++ List.replicate (slotCount - normalised.length) ""
      else normalised
    normalised.take maxTotal

/-! ### Ranked list and category parsing (classifier.py lines 788 to 877) -/

/-- Translation of `classifier._parse_ranked`: collect name/score/reason
items from a list payload, canonicalize them, and fall back to the
canonicalized embedding ranking when nothing survives. -/
def parse_ranked (cfg : Config) (payload : JVal)
    (fallback : List (String × ℚ)) : List RankedEntry :=
  let ranked : List RankedEntry :=
    match payload with
    | .arr entries =>
      entries.foldl
        (fun acc entry =>
          match entry with
          | .obj _ =>
            let nameVal := jOr (jGet entry "name") (jGet entry "path")
            match nameVal with
            | .str n =>
              if pyStrip n = "" then acc
              else
                let confidenceRaw :=
                  if jHasKey entry "score" then jGet entry "score"
                  else if jHasKey entry "confidence" then jGet entry "confidence"
                  else if jHasKey entry "rating" then jGet entry "rating"
                  else .num 0
                let nr := normalise_score_value (cfg.pyFloat confidenceRaw)
                let reason := match jGet entry "reason" with
                  | .str r => if pyStrip r ≠ "" then some (pyStrip r) else none
                  | _ => none
                acc ++ [{ name := some (pyStrip n), score := some nr.1,
                          rating := some nr.2, reason := reason }]
            | _ => acc
          | _ => acc)
        []
    | _ => []
  let canonical := canonicalize_ranked cfg ranked
  if !canonical.isEmpty then canonical else fallback_ranked cfg fallback

/-- A category dict as handled by classifier.py.  A key that is absent
and a key explicitly set to `None` are both modelled as `none`, as the
sources never distinguish them when reading the dict back. -/
structure CategoryInfo where
  label : Option String
  matched_folder : Option String
  reason : Option String
  confidence : Option ℚ
  rating : Option ℚ
  status : Option String
deriving DecidableEq

/-- The empty category dict. -/
def CategoryInfo.empty : CategoryInfo :=
  { label := none, matched_folder := none, reason := none,
    confidence := none, rating := none, status := none }

/-- Python truthiness check used on `result.get(key)` style reads. -/
def CategoryInfo.isSet : Option String → Bool
  | some s => s ≠ ""
  | none => false

/-- Translation of `classifier._parse_category`: extract label, matched
folder, reason and confidence from the payload, then re-resolve
non-unmatched labels through the catalog (preferring the matched
folder, falling back to the label), or normalize the label to a
configured top-level name. -/
def parse_category (cfg : Config) (payload : JVal) : Option CategoryInfo :=
  match payload with
  | .obj _ =>
    let labelRaw := jOr (jGet payload "label")
      (jOr (jGet payload "name") (jGet payload "category"))
    let label := if jTruthy labelRaw then pyStrip (pyStr labelRaw) else ""
    let matchedRaw := jOr (jGet payload "matched_folder") (jGet payload "folder")
    let matched := if jTruthy matchedRaw then pyStrip (pyStr matchedRaw) else ""
    let reason := match jGet payload "reason" with
      | .str r => pyStrip r
      | _ => ""
    let confidenceRaw : Option JVal :=
      if jHasKey payload "score" then some (jGet payload "score")
      else if jHasKey payload "confidence" then some (jGet payload "confidence")
      else if jHasKey payload "rating" then some (jGet payload "rating")
      else none
    let cr : Option (ℚ × ℚ) := confidenceRaw.map
      (fun raw => normalise_score_value (cfg.pyFloat raw))
    let result : CategoryInfo :=
      { label := if label ≠ "" then some label else none
        matched_folder := if matched ≠ "" then some matched else none
        reason := if reason ≠ "" then some reason else none
        confidence := cr.map (fun p => max 0 (min p.1 1))
        rating := cr.map (fun p => p.2)
        status := none }
    let loweredLabel :=
      if CategoryInfo.isSet result.label then
        pyLower (pyStrip (result.label.getD ""))
      else ""
    let result :=
      if loweredLabel ≠ "unmatched" then
        let index := catalog_index cfg
        let catalogMatch :=
          match (if matched ≠ "" then match_catalog_path cfg matched index else none) with
          | some m => some m
          | none => if label ≠ "" then match_catalog_path cfg label index else none
        match catalogMatch with
        | some (canonical, matchRating) =>
          let topLevel := String.mk (canonical.toList.takeWhile (fun c => c ≠ '/'))
          let numeric := max 0 (min (result.rating.getD matchRating) 100)
          let finalRating := max numeric matchRating
          { result with
              matched_folder := some canonical
              label := some topLevel
              rating := some finalRating
              confidence := some (max 0 (min (finalRating / 100) 1)) }
        | none =>
          match find_top_level_for_label cfg.templates (some label) with
          | some resolved =>
            { result with label := some resolved, matched_folder := none }
          | none => result
      else result
    if result.label.isSome || result.matched_folder.isSome || result.reason.isSome
        || result.confidence.isSome || result.rating.isSome || result.status.isSome then
      some result
    else none
  | .str s => if pyStrip s ≠ "" then
      some { CategoryInfo.empty with label := some (pyStrip s) }
    else none
  | _ => none

/-! ### Proposal normalisation and alignment (classifier.py lines 1150 to 1212) -/

/-- A folder proposal dict as produced by `_normalise_proposal` and
`propose_new_folder_if_needed`. -/
structure Proposal where
  parent : String
  name : String
  reason : String
  full_path : String
  status : String
  score_hint : ℚ
deriving DecidableEq

/-- Translation of `classifier._normalise_proposal`: reject the
proposal when a confident match exists (`top_score` is on the 0 to 1
scale and compared against `MIN_NEW_FOLDER_SCORE`), force the parent
onto a configured top-level name, and build the full path.  The
payload fields are the (string) values of the proposal dict, `none`
for an absent key. -/
def normalise_proposal (cfg : Config) (proposal : Option JVal)
    (parentHint : Option String) (topScore : ℚ) : Option Proposal :=
  match proposal with
  | some (.obj fields) =>
    if cfg.minNewFolderScore ≤ topScore then none
    else
      let pv := JVal.obj fields
      let parentRaw := pyStrip (pyStr
        (if jHasKey pv "parent" then jGet pv "parent"
         else .str ((pyOrStr parentHint (some "")).getD "")))
      let ensuredParent := ensure_top_level_parent cfg.templates
        (if parentRaw ≠ "" then some parentRaw else parentHint)
      let topLevels := top_level_folder_names cfg.templates
      let parent := match pyOrStr ensuredParent none with
        | some p => p
        | none => (topLevels.head?).getD "Projects"
      let name := pyStrip (pyStr
        (if jHasKey pv "name" then jGet pv "name" else .str ""))
      let reasonStr := pyStr (if jHasKey pv "reason" then jGet pv "reason" else .str "")
      let reason := if reasonStr ≠ "" then reasonStr else "automatischer Vorschlag"
      if name ≠ "" then
        let fullPath := pyStripChars (fun c => c = '/')
          (pyJoin "/" ([parent, name].filter (fun s => s ≠ "")))
        some { parent := parent, name := name, reason := reason,
               full_path := fullPath, status := "pending", score_hint := topScore }
      else none
  | _ => none

/-- Translation of `classifier._beautify_segment`: collapse slash and
backslash runs to spaces, split on dash/underscore/whitespace runs and
re-join the capitalized parts, capped at 48 characters, defaulting to
"Allgemein". -/
def beautify_segment (raw : String) : String :=
  let cleaned := String.mk (reSubRuns (fun c => c = '\\' || c = '/') ' ' raw.toList)
  let parts := (pyReSplit (fun c => c = '-' || c = '_' || isPySpace c) cleaned).filter
    (fun p => p ≠ "")
  if parts.isEmpty then
    let t := pyTake 48 (pyStrip cleaned)
    if t = "" then "Allgemein" else t
  else
    let human := pyJoin " " (parts.map (fun part =>
      if 1 < part.length then pyCapitalize part else pyUpper part))
    let t := pyTake 48 (pyStrip human)
    if t = "" then "Allgemein" else t

/-- Translation of `classifier._category_parent_segment`: parent
derived from the category matched folder (via the top-level forcing) or
from its label (configured top level, else beautified label). -/
def category_parent_segment (cfg : Config) (category : Option CategoryInfo) :
    Option String :=
  match category with
  | none => none
  | some cat =>
    match cat.matched_folder with
    | some matched =>
      if pyStrip matched ≠ "" then
        match ensure_top_level_parent cfg.templates (some matched) with
        | some candidate => if candidate ≠ "" then some candidate else
            categoryLabelSegment cfg cat
        | none => categoryLabelSegment cfg cat
      else categoryLabelSegment cfg cat
    | none => categoryLabelSegment cfg cat
where
  /-- Label half of `_category_parent_segment`. -/
  categoryLabelSegment (cfg : Config) (cat : CategoryInfo) : Option String :=
    match cat.label with
    | some label =>
      if pyStrip label ≠ "" then
        match find_top_level_for_label cfg.templates (some label) with
        | some configured => some configured
        | none => some (beautify_segment label)
      else none
    | none => none

/-- The `ranked_paths` list built at the start of
`classifier._align_proposal_with_matches`: stripped non-empty names of
the ranked entries. -/
def ranked_paths (ranked : List RankedEntry) : List String :=
  ranked.filterMap
    (fun item => match item.name with
      | some n => if pyStrip n ≠ "" then some (pyStrip n) else none
      | none => none)

/-- The parent-rewriting first half of
`classifier._align_proposal_with_matches` (lines 1193 to 1204):
rewrite the proposal parent and full path onto the preferred parent
(category, first ranked path, or hint). -/
def align_rewrite (cfg : Config) (proposal : Proposal)
    (ranked : List RankedEntry) (category : Option CategoryInfo)
    (parentHint : Option String) : Proposal :=
  let rankedPaths := ranked_paths ranked
  let preferred := category_parent_segment cfg category
  let preferred :=
    if !pyTruthy preferred then
      match rankedPaths.head? with
      | some first => ensure_top_level_parent cfg.templates (some first)
      | none => preferred
    else preferred
  let preferred :=
    if !pyTruthy preferred then
      match parentHint with
      | some hint => ensure_top_level_parent cfg.templates (some hint)
      | none => preferred
    else preferred
  let name := pyStrip proposal.name
  match preferred with
  | some pref =>
    if pref ≠ "" && name ≠ "" then
      { proposal with
          parent := pref
          full_path := pyStripChars (fun c => c = '/')
            (pyJoin "/" ([pref, name].filter (fun s => s ≠ ""))) }
    else proposal
  | none => proposal

/-- Translation of `classifier._align_proposal_with_matches` (second
half, lines 1206 to 1212): drop the rewritten proposal when its full
path collides case-insensitively with a ranked path. -/
def align_proposal_with_matches (cfg : Config) (proposal : Proposal)
    (ranked : List RankedEntry) (category : Option CategoryInfo)
    (parentHint : Option String) : Option Proposal :=
  let rankedPaths := ranked_paths ranked
  let aligned := align_rewrite cfg proposal ranked category parentHint
  if !rankedPaths.isEmpty then
    let rankedLower := rankedPaths.map pyLower
    let fullPath := pyStrip aligned.full_path
    if fullPath ≠ "" && rankedLower.contains (pyLower fullPath) then none
    else some aligned
  else some aligned

/-! ### Fallback proposal generation (classifier.py lines 1367 to 1499) -/

/-- Character class of `_normalize_token` in classifier.py
(`[^0-9A-Za-zÄÖÜäöüß]` is collapsed to dashes). -/
def isTokenChar (c : Char) : Bool :=
  ('0' ≤ c && c ≤ '9') || ('A' ≤ c && c ≤ 'Z') || ('a' ≤ c && c ≤ 'z')
  || c = 'Ä' || c = 'Ö' || c = 'Ü' || c = 'ä' || c = 'ö' || c = 'ü' || c = 'ß'

/-- Translation of `classifier._normalize_token`. -/
def normalize_token (token : String) : String :=
  pyStripChars (fun c => c = '-')
    (String.mk (reSubRuns (fun c => !isTokenChar c) '-' (pyLower (pyStrip token)).toList))

/-- The stopword set `_STOPWORDS` of classifier.py. -/
def subjectStopwords : List String :=
  ["re", "fw", "fwd", "wg", "wegen", "und", "oder", "the", "ein", "eine",
   "der", "die", "das", "info", "newsletter", "update", "subject"]

/-- Translation of `classifier._subject_slug`: normalized, stopword-free
tokens of the subject, first three joined by dashes. -/
def subject_slug (subject : String) : Option String :=
  let tokens := ((pyReSplit isPySpace subject).filter
    (fun part => pyStrip part ≠ "")).map normalize_token
  let filtered := tokens.filter
    (fun t => t ≠ "" && !subjectStopwords.contains t)
  let slug := pyJoin "-" (filtered.take 3)
  if slug = "" then none else some slug

/-- Character class of the sender-domain regex `@([A-Za-z0-9._-]+)` in
`classifier._sender_slug`. -/
def isSenderDomainChar (c : Char) : Bool :=
  ('0' ≤ c && c ≤ '9') || ('A' ≤ c && c ≤ 'Z') || ('a' ≤ c && c ≤ 'z')
  || c = '.' || c = '_' || c = '-'

/-- `re.search` for the pattern `@([A-Za-z0-9._-]+)`: the group of the
first `@` that is followed by at least one domain character. -/
def searchSenderDomain : List Char → Option String
  | [] => none
  | c :: rest =>
    if c = '@' then
      let run := rest.takeWhile isSenderDomainChar
      if !run.isEmpty then some (String.mk run)
      else searchSenderDomain rest
    else searchSenderDomain rest

/-- Translation of `classifier._sender_slug`: normalized first label of
the sender domain (or of the raw sender when no domain is found). -/
def sender_slug (sender : Option String) : Option String :=
  match sender with
  | none => none
  | some s =>
    if s = "" then none
    else
      let domain := (searchSenderDomain s.toList).getD s
      let primary := String.mk (domain.toList.takeWhile (fun c => c ≠ '.'))
      let cleaned := normalize_token primary
      if cleaned = "" then none else some cleaned

/-- Translation of `classifier._derive_leaf`: leaf name from the
subject slug, else from the sender slug, else "Allgemein"; paired with
the human-readable basis used in the proposal reason. -/
def derive_leaf (subject : String) (sender : Option String) :
    String × Option String :=
  match subject_slug subject with
  | some slug =>
    let label := beautify_segment slug
    let summary := pyTake 40
      (String.mk ((pyStrip subject).toList.map (fun c => if c = '\n' then ' ' else c)))
    let chosen :=
      if summary ≠ "" then summary
      else if pyStrip subject ≠ "" then pyStrip subject
      else label
    (label, some ("Betreff \"" ++ chosen ++ "\""))
  | none =>
    match sender_slug sender with
    | some slug =>
      (beautify_segment slug, some (pyTake 64 ("Absender " ++ (sender.getD ""))))
    | none => ("Allgemein", none)

/-- Translation of `classifier._base_parent_segment`: the ensured
parent hint, else the ensured (or raw) configured inbox name. -/
def base_parent_segment (cfg : Config) (parentHint : Option String) : String :=
  let ensured := ensure_top_level_parent cfg.templates parentHint
  if pyTruthy ensured then ensured.getD ""
  else
    let fallbackName :=
      let v := if cfg.imapInbox ≠ "" then cfg.imapInbox else "INBOX"
      if pyStrip v ≠ "" then pyStrip v else "INBOX"
    let fallbackEnsured := ensure_top_level_parent cfg.templates (some fallbackName)
    if pyTruthy fallbackEnsured then fallbackEnsured.getD "" else fallbackName

/-- Translation of `classifier.propose_new_folder_if_needed`: build a
new-folder proposal when the top score is below the creation
threshold.  The ranked candidate list is never consulted here. -/
def propose_new_folder_if_needed (cfg : Config) (topScore : ℚ)
    (subject : String) (sender : Option String) (parentHint : Option String)
    (category : Option CategoryInfo) : Option Proposal :=
  if cfg.minNewFolderScore ≤ topScore then none
  else
    let baseParent := base_parent_segment cfg parentHint
    let categoryParent := category_parent_segment cfg category
    let senderSegment := sender_slug sender
    let senderParent := senderSegment.map beautify_segment
    let parentSegments := [baseParent]
    let reasonParts := ["geringe Übereinstimmung mit bekannten Ordnern"]
    let (parentSegments, reasonParts) :=
      if pyTruthy categoryParent then
        (parentSegments ++ [categoryParent.getD ""],
         reasonParts ++ ["Überbegriff " ++ categoryParent.getD ""])
      else if pyTruthy senderParent then
        (parentSegments ++ [senderParent.getD ""],
         reasonParts ++ ["Gruppierung nach Absender " ++ senderParent.getD ""])
      else (parentSegments, reasonParts)
    let lb := derive_leaf subject sender
    let leaf := lb.1
    let reasonParts := match lb.2 with
      | some basis => reasonParts ++ ["neuer Themenordner aus " ++ basis]
      | none => reasonParts
    let parent := pyStripChars (fun c => c = '/')
      (pyJoin "/" (pyDedup ((parentSegments.filter (fun s => s ≠ "")).map
        (pyStripChars (fun c => c = '/')))))
    let fullPath := pyStripChars (fun c => c = '/')
      (pyJoin "/" ([parent, leaf].filter (fun s => s ≠ "")))
    some { parent := parent, name := leaf,
           reason := pyJoin "; " reasonParts, full_path := fullPath,
           status := "pending", score_hint := topScore }

/-! ### Worker proposal step (imap_worker.py lines 247 to 258) -/

/-- Errors a Python dict subscript can raise in the worker tail. -/
inductive WorkerStepError where
  | keyError (key : String)
deriving DecidableEq

/-- Translation of the proposal decision in `imap_worker.handle_message`
after classification: `match_score` is `refined_ranked[0]["score"]`
(a `KeyError` if the first entry lacks the key), `match_rating` falls
back to `score * 100`, and the fallback proposal generator runs only
when the rating meets the match threshold and the classifier returned
no proposal. -/
def worker_proposal_step (cfg : Config) (refined : List RankedEntry)
    (llmProposal : Option Proposal) (subject : String) (sender : Option String)
    (srcFolder : String) (category : Option CategoryInfo) :
    Except WorkerStepError (Option Proposal) :=
  match refined.head? with
  | some it =>
    match it.score with
    | none => .error (.keyError "score")
    | some matchScore =>
      let matchRating := it.rating.getD (matchScore * 100)
      if cfg.minMatchScore ≤ matchRating ∧ llmProposal = none then
        .ok (propose_new_folder_if_needed cfg matchScore subject sender
          (some srcFolder) category)
      else .ok llmProposal
  | none =>
    if cfg.minMatchScore ≤ (0 : ℚ) ∧ llmProposal = none then
      .ok (propose_new_folder_if_needed cfg 0 subject sender
        (some srcFolder) category)
    else .ok llmProposal

/-! ### Keyword filter rules and the filtered branch of handle_message
(keyword_filters.py, imap_worker.py lines 160 to 212) -/

/-- Translation of `keyword_filters.KeywordMatch`. -/
structure KeywordMatch where
  mode : String
  terms : List String
  fields : List String
deriving DecidableEq

/-- Translation of the frozen dataclass `keyword_filters.KeywordFilterRule`.
Its fields are exactly the ones declared there; dates are modelled as
day ordinals.  The dataclass field `match` is called `matchCrit` here
because `match` is a Lean keyword. -/
structure KeywordFilterRule where
  name : String
  description : Option String
  enabled : Bool
  target_folder : String
  tags : List String
  matchCrit : KeywordMatch
  date_after : Option Int
  date_before : Option Int
  include_future_dates : Bool
deriving DecidableEq

/-- Translation of `keyword_filters.KeywordMatchResult`. -/
structure KeywordMatchResult where
  rule : KeywordFilterRule
  matched_terms : List String
deriving DecidableEq

/-- Values a Python attribute read can produce on the objects involved
in the filtered branch. -/
inductive PyAttrValue where
  | strV (s : String)
  | optStrV (o : Option String)
  | boolV (b : Bool)
  | strListV (l : List String)
  | matchV (m : KeywordMatch)
  | optDateV (d : Option Int)
  | dateListV (l : List Int)
deriving DecidableEq

/-- Python `getattr` on a `KeywordFilterRule` instance: defined for
exactly the attribute names the frozen dataclass in keyword_filters.py
declares, `none` (an `AttributeError`) for every other name. -/
def ruleGetattr (r : KeywordFilterRule) : String → Option PyAttrValue
  | "name" => some (.strV r.name)
  | "description" => some (.optStrV r.description)
  | "enabled" => some (.boolV r.enabled)
  | "target_folder" => some (.strV r.target_folder)
  | "tags" => some (.strListV r.tags)
  | "match" => some (.matchV r.matchCrit)
  | "date_after" => some (.optDateV r.date_after)
  | "date_before" => some (.optDateV r.date_before)
  | "include_future_dates" => some (.boolV r.include_future_dates)
  | _ => none

/-- Python `getattr` on a `KeywordMatchResult` instance (fields `rule`
and `matched_terms` only).  The rule value is omitted here because the
worker reads it through `KeywordMatchResult.rule` directly; the lookup
matters only for the dynamically-read list attributes. -/
def matchResultGetattr (m : KeywordMatchResult) : String → Option PyAttrValue
  | "matched_terms" => some (.strListV m.matched_terms)
  | _ => none

/-- Side effects the filtered branch of `handle_message` performs
against the mailbox and persistence collaborators. -/
inductive WorkerEffect where
  | ensureFolder (path : String)
  | moveMessage (uid target src : String)
  | addTag (uid folder tag : String)
  | recordFilterHit (uid ruleName src target : String)
      (appliedTags matchedTerms : List String)
deriving DecidableEq

/-- A Python runtime error surfacing from the filtered branch. -/
inductive PyError where
  | attributeError (attr : String)
deriving DecidableEq

/-- Ascending insertion sort on day ordinals (Python `sorted` on a set
of dates). -/
def insertIntAsc (x : Int) : List Int → List Int
  | [] => [x]
  | y :: ys => if x ≤ y then x :: y :: ys else y :: insertIntAsc x ys

/-- Python `sorted({...})` over dates: deduplicate, then sort. -/
def sortedIntSet (l : List Int) : List Int :=
  (l.foldl (fun acc d => if acc.contains d then acc else acc ++ [d]) []).foldr
    insertIntAsc []

/-- Translation of the keyword-filter branch of
`imap_worker.handle_message` (lines 166 to 212): ensure the target
folder, move the message, add the processed marker, then read
`match.rule.tag_future_dates` and `match.content_dates` (attribute
lookups on the dataclass instances), synthesize `datum-` tags for
extracted future dates, apply the deduplicated rule and date tags, and
record the filter hit.  Returns the effects performed before any
runtime error, together with that error.  `isoOf` renders a day
ordinal as the ISO date string (`date.isoformat`, external). -/
def handle_message_filtered (res : KeywordMatchResult) (uid src : String)
    (processedTag : Option String) (receivedAt : Option Int)
    (isoOf : Int → String) : List WorkerEffect × Option PyError :=
  let target := res.rule.target_folder
  let eff := [WorkerEffect.ensureFolder target, WorkerEffect.moveMessage uid target src]
  let processedValue := pyStrip (processedTag.getD "")
  let eff := if processedValue ≠ "" then eff ++ [WorkerEffect.addTag uid target processedValue] else eff
  match ruleGetattr res.rule "tag_future_dates" with
  | none => (eff, some (.attributeError "tag_future_dates"))
  | some v =>
    let tfd := match v with
      | .boolV b => b
      | _ => false
    let extraTagsE : Except PyError (List String) :=
      if tfd && receivedAt.isSome then
        match matchResultGetattr res "content_dates" with
        | none => .error (.attributeError "content_dates")
        | some w =>
          match w, receivedAt with
          | .dateListV ds, some base =>
            .ok ((sortedIntSet (ds.filter (fun d => base < d))).map
              (fun d => "datum-" ++ isoOf d))
          | _, _ => .ok []
      else .ok []
    match extraTagsE with
    | .error e => (eff, some e)
    | .ok extraTags =>
      let combined := (res.rule.tags ++ extraTags).foldl
        (fun (st : List String × List String) tag =>
          let cleaned := pyStrip tag
          if cleaned = "" then st
          else if st.1.contains (pyLower cleaned) then st
          else (st.1 ++ [pyLower cleaned], st.2 ++ [cleaned]))
        ([], [])
      let combinedTags := combined.2
      let eff := eff ++ combinedTags.map (fun t => WorkerEffect.addTag uid target t)
      (eff ++ [WorkerEffect.recordFilterHit uid res.rule.name src target
        combinedTags res.matched_terms], none)

/-! ### Rescan controller (rescan_control.py) -/

/-- Translation of `rescan_control.RescanStatus`; timestamps are
abstract clock ticks. -/
structure RescanStatus where
  active : Bool
  folders : List String
  started_at : Option Nat
  finished_at : Option Nat
  last_result_count : Option Nat
  last_error : Option String
  cancelled : Bool
deriving DecidableEq

/-- Phase of the asyncio task owned by the controller. -/
inductive TaskPhase where
  | running
  | doneOk (count : Nat)
  | doneCancelled
  | doneFailed (msg : String)
deriving DecidableEq

/-- State of a `RescanController`: the optional task and the status
record it owns. -/
structure RescanState where
  task : Option TaskPhase
  status : RescanStatus
deriving DecidableEq

/-- Translation of `RescanController._normalize_folders`. -/
def normalize_folders : Option (List String) → List String
  | none => []
  | some folders =>
    folders.foldl
      (fun acc f =>
        let v := pyStrip f
        if v = "" || acc.contains v then acc else acc ++ [v])
      []

/-- Outcome of the locked section of `RescanController.run` (lines 46
to 58): `busy` is the `RescanBusyError` raise, `started` means a new
scan task was created. -/
inductive RunAcquire where
  | busy
  | started (folders : List String)
deriving DecidableEq

/-- Translation of the locked acquisition section of
`RescanController.run`: raise Busy while a previous task is still
active (before touching the status record), otherwise reset the status
and create the scan task. -/
def rescan_run_acquire (st : RescanState) (now : Nat)
    (folders : Option (List String)) : RunAcquire × RescanState :=
  match st.task with
  | some .running => (.busy, st)
  | _ =>
    let normalized := normalize_folders folders
    (.started normalized,
     { task := some .running
       status := { active := true
                   cancelled := false
                   started_at := some now
                   finished_at := none
                   last_error := none
                   last_result_count := none
                   folders := normalized } })

/-- Translation of `RescanController._finalize`. -/
def rescan_finalize (st : RescanState) (now : Nat) (cancelled : Bool) :
    RescanState :=
  { task := none
    status := { st.status with
                  active := false
                  cancelled := st.status.cancelled || cancelled
                  finished_at := some now } }

/-- Outcome of a full `RescanController.run` call: `busyError` and
`cancelledError` are the distinct exception types `RescanBusyError`
and `RescanCancelledError`; `failed` is a generic scan exception. -/
inductive RescanOutcome where
  | completed (count : Nat)
  | busyError
  | cancelledError
  | failed (msg : String)
deriving DecidableEq

/-- The stop-during-run scenario, composed from the translated pieces
of rescan_control.py under the cooperative single-thread scheduling the
sources run on: `run` acquires the lock and creates the task, then
suspends awaiting it; `stop` takes the task (line 71), marks the status
cancelled (line 75) and cancels the task (line 76); the cancellation
propagates through `_execute` (lines 92 to 93); `stop` finalizes with
`cancelled := true` (line 82); the awaited task raises inside `run`,
which wraps it into `RescanCancelledError` (lines 63 to 64) and
finalizes again (line 66).  The two `_finalize` calls commute, so the
modelled order is the canonical one. -/
def rescan_stop_during_run (st0 : RescanState) (t0 t1 t2 : Nat)
    (folders : Option (List String)) : RescanOutcome × RescanState :=
  match rescan_run_acquire st0 t0 folders with
  | (.busy, st) => (.busyError, st)
  | (.started _, st1) =>
    let st2 : RescanState :=
      { task := none, status := { st1.status with cancelled := true } }
    let st3 := rescan_finalize st2 t1 true
    let st4 := rescan_finalize st3 t2 false
    (.cancelledError, st4)

/-! ### Streamed payload search (classifier.py lines 509 to 625) -/

/-- The key set `_CLASSIFIER_KEYS` of classifier.py. -/
def classifierKeys : List String := ["ranked", "category", "tags", "extras", "proposal"]

/-- Translation of `classifier._looks_like_classifier_payload`. -/
def looks_like_classifier_payload (fields : List (String × JVal)) : Bool :=
  classifierKeys.any (fun k => fields.any (fun kv => kv.1 = k))

/-- Last index at which `needle` occurs in `hay` (`str.rfind` for a
substring). -/
def substrRfind (needle hay : List Char) : Option Nat :=
  ((List.range (hay.length + 1)).reverse).find?
    (fun i => needle.isPrefixOf (hay.drop i))

/-- First index at which character `c` occurs (`str.find`). -/
def charFind (c : Char) (hay : List Char) : Option Nat :=
  (List.range hay.length).find? (fun i => (hay.drop i).head? = some c)

/-- Translation of `classifier._strip_code_fence`. -/
def strip_code_fence (content : String) : String :=
  let text := pyStrip content
  if !pyStartsWith "```" text then text
  else
    let stripped := pyLstrip (pyDrop 3 text)
    let stripped :=
      if pyStartsWith "json" (pyLower stripped) then pyLstrip (pyDrop 4 stripped)
      else stripped
    let stripped :=
      match substrRfind "```".toList stripped.toList with
      | some closing => String.mk (stripped.toList.take closing)
      | none => stripped
    pyStrip stripped

/-- Translation of `classifier._candidate_json_segments` for a string
content value: the code-fence-stripped text, the raw text, and the
substring between the first `{` and the last `}`. -/
def candidate_json_segments (content : String) : List String :=
  let text := pyStrip content
  if text = "" then []
  else
    let candidates := if strip_code_fence text ≠ "" then [strip_code_fence text] else []
    let candidates :=
      if !candidates.contains text then candidates ++ [text] else candidates
    let braceStart := charFind '{' text.toList
    let braceEnd := (substrRfind ['}'] text.toList)
    match braceStart, braceEnd with
    | some s, some e =>
      if s < e then
        let inner := pyStrip (String.mk ((text.toList.drop s).take (e + 1 - s)))
        if inner ≠ "" && !candidates.contains inner then candidates ++ [inner]
        else candidates
      else candidates
    | _, _ => candidates

/-- The nested key list probed by `_load_json_payload`. -/
def nestedPayloadKeys : List String :=
  ["message", "content", "response", "data", "delta", "value", "payload", "body"]

/-- Translation of `classifier._load_json_payload`.  The recursion
depth guard `_depth > 6` becomes the fuel argument (`fuel = 7 - depth`,
initial call with fuel 7): a node still answers the classifier-key
check at fuel 0 but descends no further, exactly as in the source.
`jsonLoads` and `rawDecode` embed `json.loads` and
`JSONDecoder.raw_decode` (standard library, external); the
object-identity cycle set of the source is dropped because `JVal`
trees cannot contain cycles. -/
def load_json_payload (jsonLoads rawDecode : String → Option JVal) :
    JVal → Nat → Option (List (String × JVal))
  | .obj fields, fuel =>
    if looks_like_classifier_payload fields then some fields
    else
      match fuel with
      | 0 => none
      | f + 1 =>
        match nestedPayloadKeys.findSome?
            (fun key =>
              match fields.find? (fun kv => kv.1 = key) with
              | some kv => load_json_payload jsonLoads rawDecode kv.2 f
              | none => none) with
        | some r => some r
        | none =>
          fields.findSome? (fun kv => load_json_payload jsonLoads rawDecode kv.2 f)
  | .arr items, fuel =>
    match fuel with
    | 0 => none
    | f + 1 => items.findSome? (fun item => load_json_payload jsonLoads rawDecode item f)
  | .str s, _ =>
    (candidate_json_segments s).findSome?
      (fun cand =>
        let parsed := match jsonLoads cand with
          | some v => some v
          | none => rawDecode cand
        match parsed with
        | some (.obj fields) =>
          if looks_like_classifier_payload fields then some fields else none
        | _ => none)
  | _, _ => none

/-! ### Classification decision (classifier.py lines 1215 to 1358) -/

/-- The result quadruple of `classify_with_model`. -/
structure ClassifyResult where
  ranked : List RankedEntry
  proposal : Option Proposal
  category : Option CategoryInfo
  tags : List String
deriving DecidableEq

/-- Translation of the best-rating loop of `classify_with_model`
(lines 1329 to 1338). -/
def best_rating_of (refined : List RankedEntry) : ℚ :=
  refined.foldl
    (fun best item =>
      let ratingValue := match item.rating with
        | some r => r
        | none => (item.score.getD 0) * 100
      max best ratingValue)
    0

/-- Translation of the tail of `classify_with_model` operating on a
successfully parsed payload dict (lines 1324 to 1358): parse the
ranked list, category and tags, then either clear everything to the
unmatched shape when the best rating misses the match threshold, or
produce the aligned proposal. -/
def classify_decision (cfg : Config) (slots : List TagSlot) (maxTotal : Nat)
    (parsed : List (String × JVal)) (ranked : List (String × ℚ))
    (parentHint : Option String) : ClassifyResult :=
  let pv := JVal.obj parsed
  let refined := parse_ranked cfg (jGet pv "ranked") ranked
  let category := parse_category cfg (jGet pv "category")
  let extrasPayload := jGet pv "extras"
  let tags := parse_tags cfg slots maxTotal (jGet pv "tags") extrasPayload
  let best := best_rating_of refined
  if best < cfg.minMatchScore then
    let c0 := category.getD CategoryInfo.empty
    let c1 : CategoryInfo :=
      { c0 with
          label := some (c0.label.getD "unmatched")
          matched_folder := none
          confidence := some 0
          rating := some best
          status := some "unmatched" }
    { ranked := [], proposal := none, category := some c1, tags := [] }
  else
    let proposal := normalise_proposal cfg (some (jGet pv "proposal")) parentHint
      (if best ≠ 0 then best / 100 else 0)
    let proposal := proposal.bind
      (fun p => align_proposal_with_matches cfg p refined category parentHint)
    { ranked := refined, proposal := proposal, category := category, tags := tags }

/-- Outcome of the awaited `_chat` call: either the merged response
dict or the exception `classify_with_model` catches. -/
inductive ChatOutcome where
  | failed (msg : String)
  | ok (response : JVal)

/-- Translation of `classifier.classify_with_model` given the resolved
model name and the chat outcome (the prompt construction between lines
1232 and 1296 only shapes the request and cannot influence the
returned value): an empty model name, a chat failure, missing content
or an unparseable payload all degrade to the canonicalized fallback
ranking with no proposal, no category and no tags; otherwise the
decision tail runs on the parsed payload. -/
def classify_with_model (cfg : Config) (slots : List TagSlot) (maxTotal : Nat)
    (jsonLoads rawDecode : String → Option JVal) (modelName : String)
    (ranked : List (String × ℚ)) (parentHint : Option String)
    (chat : ChatOutcome) : ClassifyResult :=
  if pyStrip modelName = "" then
    { ranked := fallback_ranked cfg ranked, proposal := none,
      category := none, tags := [] }
  else
    match chat with
    | .failed _ =>
      { ranked := fallback_ranked cfg ranked, proposal := none,
        category := none, tags := [] }
    | .ok response =>
      let content := jGet (jGet response "message") "content"
      if !jTruthy content then
        { ranked := fallback_ranked cfg ranked, proposal := none,
          category := none, tags := [] }
      else
        let parsed := match load_json_payload jsonLoads rawDecode content 7 with
          | some fields => some fields
          | none => load_json_payload jsonLoads rawDecode response 7
        match parsed with
        | none =>
          { ranked := fallback_ranked cfg ranked, proposal := none,
            category := none, tags := [] }
        | some fields => classify_decision cfg slots maxTotal fields ranked parentHint

/-! ### Concrete fixtures used by example runs of the pipeline

The ratio collaborator of the fixtures is never consulted in the runs
below because every catalog lookup there ends in an exact-match early
return; the float collaborator is restricted to JSON numbers, the only
score shape occurring in the fixtures. -/

/-- Conversion `float(...)` restricted to JSON numbers. -/
def pyFloatNum : JVal → Option ℚ :=
  fun v => match v with
  | .num q => some q
  | _ => none

/-- Fixture configuration with an empty folder catalog. -/
def cfgNoCatalog : Config :=
  { templates := [], imapInbox := "INBOX", minMatchScore := 50,
    minNewFolderScore := 78/100, maxSuggestions := 3,
    ratio := fun _ _ => 0, pyFloat := pyFloatNum }

/-- Fixture configuration with the catalog `Finance` (no children). -/
def cfgFinance : Config :=
  { templates := [.mk "Finance" []], imapInbox := "INBOX", minMatchScore := 50,
    minNewFolderScore := 78/100, maxSuggestions := 3,
    ratio := fun _ _ => 0, pyFloat := pyFloatNum }

/-- Fixture configuration with the catalog `Archiv` (no children). -/
def cfgArchiv : Config :=
  { templates := [.mk "Archiv" []], imapInbox := "INBOX", minMatchScore := 50,
    minNewFolderScore := 78/100, maxSuggestions := 3,
    ratio := fun _ _ => 0, pyFloat := pyFloatNum }

/-- Fixture configuration with the catalog `Projects/Acme`. -/
def cfgProjects : Config :=
  { templates := [.mk "Projects" [.mk "Acme" []]], imapInbox := "INBOX",
    minMatchScore := 50, minNewFolderScore := 78/100, maxSuggestions := 3,
    ratio := fun _ _ => 0, pyFloat := pyFloatNum }

/-- Fixture ranked list holding the single canonical candidate
`Projects/Acme` at rating 50. -/
def refinedAcme : List RankedEntry :=
  [{ name := some "Projects/Acme", score := some (1/2), rating := some 50,
     reason := none }]

/-- Fixture rescan controller state with no task and a fresh status. -/
def rescanIdle : RescanState :=
  { task := none
    status := { active := false, folders := [], started_at := none,
                finished_at := none, last_result_count := none,
                last_error := none, cancelled := false } }

/-- Fixture rescan controller state whose task is still running. -/
def rescanBusy : RescanState :=
  { rescanIdle with task := some .running }

/-- Fixture keyword rule routing invoices to `Target`. -/
def ruleInvoice : KeywordFilterRule :=
  { name := "route-invoices", description := none, enabled := true,
    target_folder := "Target", tags := ["invoice"],
    matchCrit := { mode := "any", terms := ["invoice"], fields := ["subject"] },
    date_after := none, date_before := none, include_future_dates := false }

/-- The entry `canonicalize_step` produces for an already-canonical
input entry carrying rating 100 (used to state the fixed-point theorem
about `_canonicalize_ranked`). -/
def canonEntryOf (n : String) (e : RankedEntry) : RankedEntry :=
  { name := some n
    score := some ((100 : ℚ) / 100)
    rating := some 100
    reason := e.reason.bind
      (fun r => if pyStrip r ≠ "" then some (pyStrip r) else none) }

/-! ### Theorems -/

/-- C10: `_normalise_score_value` is total and returns a pair
`(score, rating)` with `0 ≤ score ≤ 1`, `0 ≤ rating ≤ 100` and
`rating = 100 * score`; numeric inputs above 1 are clamped on the
0 to 100 rating scale, numeric inputs at most 1 are clamped on the
0 to 1 score scale, and a non-numeric input (failed `float(...)`)
yields `(0, 0)`. -/
theorem normalise_score_value_spec (raw : Option ℚ) :
    0 ≤ (normalise_score_value raw).1 ∧ (normalise_score_value raw).1 ≤ 1 ∧
    0 ≤ (normalise_score_value raw).2 ∧ (normalise_score_value raw).2 ≤ 100 ∧
    (normalise_score_value raw).2 = 100 * (normalise_score_value raw).1 ∧
    (raw = none → normalise_score_value raw = (0, 0)) ∧
    (∀ v : ℚ, raw = some v → 1 < v →
      (normalise_score_value raw).2 = max 0 (min v 100)) ∧
    (∀ v : ℚ, raw = some v → v ≤ 1 →
      (normalise_score_value raw).1 = max 0 (min v 1)) := by
  rcases raw with _ | v
  · simp [normalise_score_value]
  · by_cases h : 1 < v
    · have hmin : (1 : ℚ) < min v 100 ∨ min v 100 = v ∨ min v 100 = 100 := by
        rcases le_total v 100 with hv | hv
        · exact Or.inr (Or.inl (min_eq_left hv))
        · exact Or.inr (Or.inr (min_eq_right hv))
      have h0 : (0 : ℚ) ≤ max 0 (min v 100) := le_max_left _ _
      have h100 : max 0 (min v 100) ≤ 100 := by
        apply max_le (by norm_num)
        exact min_le_right _ _
      refine ⟨?_, ?_, ?_, ?_, ?_, ?_, ?_, ?_⟩
      · simp only [normalise_score_value, if_pos h]
        positivity
      · simp only [normalise_score_value, if_pos h]
        have := h100
        linarith
      · simp only [normalise_score_value, if_pos h]
        exact h0
      · simp only [normalise_score_value, if_pos h]
        exact h100
      · simp only [normalise_score_value, if_pos h]
        ring
      · intro hc; cases hc
      · intro w hw hw1
        cases hw
        simp only [normalise_score_value, if_pos h]
      · intro w hw hw1
        cases hw
        exact absurd hw1 (not_le.mpr h)
    · have h0 : (0 : ℚ) ≤ max 0 (min v 1) := le_max_left _ _
      have h1 : max 0 (min v 1) ≤ 1 := by
        apply max_le (by norm_num)
        exact min_le_right _ _
      refine ⟨?_, ?_, ?_, ?_, ?_, ?_, ?_, ?_⟩
      · simp only [normalise_score_value, if_neg h]
        exact h0
      · simp only [normalise_score_value, if_neg h]
        exact h1
      · simp only [normalise_score_value, if_neg h]
        positivity
      · simp only [normalise_score_value, if_neg h]
        nlinarith [h1, h0]
      · simp only [normalise_score_value, if_neg h]
        ring
      · intro hc; cases hc
      · intro w hw hw1
        cases hw
        exact absurd hw1 h
      · intro w hw hw1
        cases hw
        simp only [normalise_score_value, if_neg h]

/-- C10 witness: the theorem applied to the numeric input 40 (rating
scale) with all hypotheses discharged. -/
theorem normalise_score_value_spec_witness :
    (some (40 : ℚ) = none → normalise_score_value (some 40) = (0, 0)) ∧
    normalise_score_value (some (40 : ℚ)) = (2/5, 40) ∧
    (normalise_score_value (some (40 : ℚ))).2 = max 0 (min 40 100) := by
  refine ⟨(normalise_score_value_spec (some 40)).2.2.2.2.2.1, ?_, ?_⟩
  · norm_num [normalise_score_value]
  · exact (normalise_score_value_spec (some 40)).2.2.2.2.2.2.1 40 rfl (by norm_num)

/-- C5: calling `RescanController.run` while the previous task is still
active fails with the Busy outcome (`RescanBusyError`), creates no new
scan task and leaves the status record (every field of it) unchanged:
the returned state is exactly the input state. -/
theorem rescan_run_busy_spec (st : RescanState) (now : Nat)
    (folders : Option (List String)) (h : st.task = some TaskPhase.running) :
    rescan_run_acquire st now folders = (RunAcquire.busy, st) := by
  unfold rescan_run_acquire
  rw [h]

/-- C5 witness: the theorem applied to a concrete busy controller
state. -/
theorem rescan_run_busy_spec_witness :
    rescanBusy.task = some TaskPhase.running ∧
    rescan_run_acquire rescanBusy 7 (some ["INBOX"]) = (RunAcquire.busy, rescanBusy) :=
  ⟨rfl, rescan_run_busy_spec rescanBusy 7 (some ["INBOX"]) rfl⟩

/-- C6: stopping the controller while a run is in flight makes the
original `run` call terminate with the distinct Cancelled outcome
(`RescanCancelledError`, not the generic failure outcome), and
afterwards the status record shows `cancelled = true` and
`active = false`. -/
theorem rescan_stop_during_run_spec (st0 : RescanState) (t0 t1 t2 : Nat)
    (folders : Option (List String)) (h : st0.task ≠ some TaskPhase.running) :
    (rescan_stop_during_run st0 t0 t1 t2 folders).1 = RescanOutcome.cancelledError ∧
    (∀ msg, (rescan_stop_during_run st0 t0 t1 t2 folders).1 ≠ RescanOutcome.failed msg) ∧
    (rescan_stop_during_run st0 t0 t1 t2 folders).2.status.cancelled = true ∧
    (rescan_stop_during_run st0 t0 t1 t2 folders).2.status.active = false := by
  rcases hst : st0.task with _ | phase
  · simp [rescan_stop_during_run, rescan_run_acquire, rescan_finalize, hst]
  · cases phase
    · exact absurd hst h
    all_goals
      simp [rescan_stop_during_run, rescan_run_acquire, rescan_finalize, hst]

/-- C6 witness: the theorem applied to a concrete idle controller
state. -/
theorem rescan_stop_during_run_spec_witness :
    rescanIdle.task ≠ some TaskPhase.running ∧
    (rescan_stop_during_run rescanIdle 1 2 3 (some ["A"])).1
      = RescanOutcome.cancelledError ∧
    (rescan_stop_during_run rescanIdle 1 2 3 (some ["A"])).2.status.cancelled = true := by
  have h : rescanIdle.task ≠ some TaskPhase.running := by
    intro hc
    cases hc
  have spec := rescan_stop_during_run_spec rescanIdle 1 2 3 (some ["A"]) h
  exact ⟨h, spec.1, spec.2.2.1⟩

/-- C7 (amended): when the chat call inside `classify_with_model`
fails, the function does not raise (it is total on the failure
outcome) and returns the canonicalized fallback ranking
`_fallback_ranked(ranked)` derived from the embedding ranking,
together with no proposal, no category and no tags.  The fallback
ranking is not in general the embedding ranking unchanged; see the
counterexample. -/
theorem classify_chat_failure_degrades (cfg : Config) (slots : List TagSlot)
    (maxTotal : Nat) (jsonLoads rawDecode : String → Option JVal)
    (modelName : String) (ranked : List (String × ℚ))
    (parentHint : Option String) (msg : String) :
    (classify_with_model cfg slots maxTotal jsonLoads rawDecode modelName
        ranked parentHint (.failed msg)).ranked = fallback_ranked cfg ranked ∧
    (classify_with_model cfg slots maxTotal jsonLoads rawDecode modelName
        ranked parentHint (.failed msg)).proposal = none ∧
    (classify_with_model cfg slots maxTotal jsonLoads rawDecode modelName
        ranked parentHint (.failed msg)).category = none ∧
    (classify_with_model cfg slots maxTotal jsonLoads rawDecode modelName
        ranked parentHint (.failed msg)).tags = [] := by
  unfold classify_with_model
  split
  · exact ⟨rfl, rfl, rfl, rfl⟩
  · exact ⟨rfl, rfl, rfl, rfl⟩

/-- C7 counterexample: with catalog `Archiv` and the embedding ranking
`[("Archiv", 0.4)]`, a chat failure returns the candidate with score 1
and rating 100 (canonicalization raised it to the exact-match rating),
not the embedding ranking unchanged (which would carry score 0.4 and
rating 40). -/
theorem classify_chat_failure_not_unchanged :
    (classify_with_model cfgArchiv [] 3 (fun _ => none) (fun _ => none)
        "llama3" [("Archiv", 2/5)] none (.failed "timeout")).ranked
      = [{ name := some "Archiv", score := some 1, rating := some 100,
           reason := none }] ∧
    (classify_with_model cfgArchiv [] 3 (fun _ => none) (fun _ => none)
        "llama3" [("Archiv", 2/5)] none (.failed "timeout")).ranked
      ≠ [{ name := some "Archiv", score := some (2/5), rating := some 40,
           reason := none }] := by
  have h : (classify_with_model cfgArchiv [] 3 (fun _ => none) (fun _ => none)
      "llama3" [("Archiv", 2/5)] none (.failed "timeout")).ranked
      = [{ name := some "Archiv", score := some 1, rating := some 100,
           reason := none }] :=
    of_decide_eq_true (by with_unfolding_all rfl)
  refine ⟨h, ?_⟩
  rw [h]
  intro hc
  have := List.head_eq_of_cons_eq hc
  have hs : (1 : ℚ) = 2/5 := by
    have := congrArg RankedEntry.score this
    simpa using this
  norm_num at hs

/-- The attribute `tag_future_dates` read by imap_worker.py line 186 is
not among the fields the frozen dataclass `KeywordFilterRule` declares
in keyword_filters.py, so the lookup raises `AttributeError`. -/
theorem ruleGetattr_tag_future_dates (r : KeywordFilterRule) :
    ruleGetattr r "tag_future_dates" = none := rfl

/-- C2: the claim states that on a keyword-rule match `handle_message`
moves the message, applies the processed marker and the rule tags,
records the filter hit and returns.  On the code as written the branch
instead raises `AttributeError` at the read of
`match.rule.tag_future_dates` (imap_worker.py line 186, an attribute
the dataclass in keyword_filters.py does not declare), after the move
and the processed marker but before any rule tag is applied and before
the filter hit is recorded: for every matching rule and message the
branch ends in the attribute error and the recorded effects never
include a filter hit. -/
theorem handle_message_filtered_attribute_error (res : KeywordMatchResult)
    (uid src : String) (processedTag : Option String) (receivedAt : Option Int)
    (isoOf : Int → String) :
    (handle_message_filtered res uid src processedTag receivedAt isoOf).2
      = some (PyError.attributeError "tag_future_dates") ∧
    (∀ e ∈ (handle_message_filtered res uid src processedTag receivedAt isoOf).1,
      ∀ u r s t ts ms, e ≠ WorkerEffect.recordFilterHit u r s t ts ms) ∧
    (∀ e ∈ (handle_message_filtered res uid src processedTag receivedAt isoOf).1,
      ∀ u f tg, e = WorkerEffect.addTag u f tg →
        tg = pyStrip (processedTag.getD "")) := by
  unfold handle_message_filtered
  rw [ruleGetattr_tag_future_dates]
  refine ⟨rfl, ?_, ?_⟩
  · intro e he u r s t ts ms
    simp only at he
    split at he
    all_goals
      simp only [List.mem_append, List.mem_cons, List.mem_singleton,
        List.not_mem_nil, or_false] at he
    · rcases he with (rfl | rfl) | rfl
      all_goals simp
    · rcases he with rfl | rfl
      all_goals simp
  · intro e he u f tg heq
    simp only at he
    split at he
    all_goals
      simp only [List.mem_append, List.mem_cons, List.mem_singleton,
        List.not_mem_nil, or_false] at he
    · rcases he with (rfl | rfl) | rfl
      · simp at heq
      · simp at heq
      · simp only [WorkerEffect.addTag.injEq] at heq
        exact heq.2.2.symm
    · rcases he with rfl | rfl
      · simp at heq
      · simp at heq

/-- C2 witness: the theorem applied to the concrete invoice rule, a
concrete message and the processed marker `processed`. -/
theorem handle_message_filtered_attribute_error_witness :
    ((handle_message_filtered { rule := ruleInvoice, matched_terms := ["invoice"] }
        "42" "INBOX" (some "processed") (some 20000) (fun d => toString d)).2
      = some (PyError.attributeError "tag_future_dates")) ∧
    (WorkerEffect.recordFilterHit "42" "route-invoices" "INBOX" "Target"
        ["invoice"] ["invoice"]
      ∉ (handle_message_filtered { rule := ruleInvoice, matched_terms := ["invoice"] }
        "42" "INBOX" (some "processed") (some 20000) (fun d => toString d)).1) := by
  have spec := handle_message_filtered_attribute_error
    { rule := ruleInvoice, matched_terms := ["invoice"] }
    "42" "INBOX" (some "processed") (some 20000) (fun d => toString d)
  refine ⟨spec.1, ?_⟩
  intro hmem
  exact spec.2.1 _ hmem "42" "route-invoices" "INBOX" "Target" ["invoice"] ["invoice"] rfl

/-- C8: the claim (and the comment block above `_PLACEHOLDER_TOKENS`)
states that the produced tag list never contains a placeholder token
such as `NAME`.  The code contradicts this: the extras path filters
with `_has_placeholder_token(word, ignore_prefix=True)`, which drops
the first dash-separated segment before testing, so the one-segment
extra `NAME` (the model echoing the template) passes the filter and is
returned verbatim, although `_has_placeholder_token` without the
prefix skip classifies it as a placeholder. -/
theorem parse_tags_emits_placeholder :
    parse_tags cfgNoCatalog [] 3 (.arr []) (.arr [.str "NAME"]) = ["NAME"] ∧
    has_placeholder_token false "NAME" = true ∧
    has_placeholder_token true "NAME" = false := by
  refine ⟨?_, by decide, by decide⟩
  decide

/-- C1: in the decision tail of `classify_with_model`, whenever the
best rating of the refined (canonicalized) ranked candidates is below
the configured match threshold, the returned ranked list is empty, the
returned category carries status `unmatched` with a null matched
folder, no proposal is returned, and the tag list is empty. -/
theorem classify_decision_unmatched (cfg : Config) (slots : List TagSlot)
    (maxTotal : Nat) (parsed : List (String × JVal))
    (ranked : List (String × ℚ)) (parentHint : Option String)
    (h : best_rating_of (parse_ranked cfg (jGet (JVal.obj parsed) "ranked") ranked)
      < cfg.minMatchScore) :
    (classify_decision cfg slots maxTotal parsed ranked parentHint).ranked = [] ∧
    (classify_decision cfg slots maxTotal parsed ranked parentHint).proposal = none ∧
    (classify_decision cfg slots maxTotal parsed ranked parentHint).tags = [] ∧
    ∃ c, (classify_decision cfg slots maxTotal parsed ranked parentHint).category
        = some c ∧ c.status = some "unmatched" ∧ c.matched_folder = none := by
  unfold classify_decision
  simp only [if_pos h]
  exact ⟨trivial, trivial, trivial, ⟨_, rfl, rfl, rfl⟩⟩

/-- C1 witness: with an empty catalog the candidate `Quotes` keeps its
rating 40, which is below the threshold 50, and the theorem yields the
cleared unmatched result. -/
theorem classify_decision_unmatched_witness :
    (best_rating_of (parse_ranked cfgNoCatalog
        (jGet (JVal.obj [("ranked", JVal.arr
          [JVal.obj [("name", JVal.str "Quotes"), ("rating", JVal.num 40)]])])
          "ranked") [])
      < cfgNoCatalog.minMatchScore) ∧
    (classify_decision cfgNoCatalog [] 3
        [("ranked", JVal.arr
          [JVal.obj [("name", JVal.str "Quotes"), ("rating", JVal.num 40)]])]
        [] none).ranked = [] ∧
    (classify_decision cfgNoCatalog [] 3
        [("ranked", JVal.arr
          [JVal.obj [("name", JVal.str "Quotes"), ("rating", JVal.num 40)]])]
        [] none).proposal = none ∧
    (classify_decision cfgNoCatalog [] 3
        [("ranked", JVal.arr
          [JVal.obj [("name", JVal.str "Quotes"), ("rating", JVal.num 40)]])]
        [] none).tags = [] ∧
    ∃ c, (classify_decision cfgNoCatalog [] 3
        [("ranked", JVal.arr
          [JVal.obj [("name", JVal.str "Quotes"), ("rating", JVal.num 40)]])]
        [] none).category = some c ∧
      c.status = some "unmatched" ∧ c.matched_folder = none := by
  have h : best_rating_of (parse_ranked cfgNoCatalog
      (jGet (JVal.obj [("ranked", JVal.arr
        [JVal.obj [("name", JVal.str "Quotes"), ("rating", JVal.num 40)]])])
        "ranked") [])
      < cfgNoCatalog.minMatchScore :=
    of_decide_eq_true (by with_unfolding_all rfl)
  have spec := classify_decision_unmatched cfgNoCatalog [] 3
    [("ranked", JVal.arr
      [JVal.obj [("name", JVal.str "Quotes"), ("rating", JVal.num 40)]])] [] none h
  exact ⟨h, spec.1, spec.2.1, spec.2.2.1, spec.2.2.2⟩

/-- In a list of paths whose lower-cased forms are distinct, the first
path matching a member case-insensitively is that member itself. -/
theorem find_lower_eq_self {paths : List String} {p : String}
    (hmem : p ∈ paths) (hnodup : (paths.map pyLower).Nodup) :
    paths.find? (fun q => pyLower q = pyLower p) = some p := by
  induction paths with
  | nil => cases hmem
  | cons q rest ih =>
    rcases List.mem_cons.mp hmem with rfl | hmem'
    · exact List.find?_cons_of_pos _ (by simp)
    · have hq : pyLower q ≠ pyLower p := by
        intro hqe
        have : pyLower p ∈ rest.map pyLower := List.mem_map_of_mem pyLower hmem'
        rw [← hqe] at this
        exact (List.nodup_cons.mp hnodup).1 this
      rw [List.find?_cons_of_neg _ (by simp [hq])]
      exact ih hmem' (List.nodup_cons.mp hnodup).2

/-- Exact-match short circuit of `_match_catalog_path`: a stripped
non-empty catalog path (over a catalog without case-insensitive
duplicates) matches itself at rating 100 before any fuzzy logic
runs. -/
theorem match_catalog_path_exact (cfg : Config) (p : String)
    (hmem : p ∈ cfg.catalogPaths) (hstrip : pyStrip p = p) (hne : p ≠ "")
    (hnodup : (cfg.catalogPaths.map pyLower).Nodup) :
    match_catalog_path cfg p (catalog_index cfg) = some (p, 100) := by
  have hnenil : catalog_index cfg ≠ [] := by
    intro hc
    have hm : (p, catalog_signature p) ∈ catalog_index cfg :=
      List.mem_map_of_mem (fun q => (q, catalog_signature q)) hmem
    rw [hc] at hm
    cases hm
  have hempty : (catalog_index cfg).isEmpty = false := by
    simp [List.isEmpty_eq_false, hnenil]
  have hfind : (catalog_index cfg).find?
      (fun pr => pyLower pr.1 = pyLower p) = some (p, catalog_signature p) := by
    show (cfg.catalogPaths.map (fun q => (q, catalog_signature q))).find?
        (fun pr => pyLower pr.1 = pyLower p) = some (p, catalog_signature p)
    rw [List.find?_map]
    have : ((fun pr : String × String => decide (pyLower pr.1 = pyLower p)) ∘
        (fun q => (q, catalog_signature q))) = fun q => decide (pyLower q = pyLower p) := by
      funext q
      rfl
    rw [this, find_lower_eq_self hmem hnodup]
    rfl
  simp only [match_catalog_path]
  rw [hstrip]
  rw [if_neg hne, hempty]
  simp only [Bool.false_eq_true, if_false]
  rw [hfind]

/-- Lookup in an insertion-ordered dict misses every absent key. -/
theorem assocFind_eq_none {α : Type} (l : List (String × α)) (k : String)
    (h : ∀ kv ∈ l, kv.1 ≠ k) : assocFind l k = none := by
  induction l with
  | nil => rfl
  | cons kv rest ih =>
    have hrest := ih (fun kv' h' => h kv' (List.mem_cons_of_mem kv h'))
    unfold assocFind at hrest ⊢
    rw [List.find?_cons_of_neg _ (by simp [h kv (List.mem_cons_self kv rest)])]
    exact hrest

/-- Assignment of an absent key appends at the end of the dict. -/
theorem assocSet_append {α : Type} (l : List (String × α)) (k : String) (v : α)
    (h : ∀ kv ∈ l, kv.1 ≠ k) : assocSet l k v = l ++ [(k, v)] := by
  induction l with
  | nil => rfl
  | cons kv rest ih =>
    unfold assocSet
    rw [if_neg (h kv (List.mem_cons_self kv rest))]
    rw [ih (fun kv' h' => h kv' (List.mem_cons_of_mem kv h'))]
    rfl

/-- One loop step of `_canonicalize_ranked` on an already-canonical
entry with rating 100 whose canonical path is not yet in the dict:
the entry is appended under its own name with rating 100. -/
theorem canonicalize_step_canonical (cfg : Config)
    (acc : List (String × RankedEntry)) (e : RankedEntry) (n : String)
    (hname : e.name = some n) (hmem : n ∈ cfg.catalogPaths)
    (hstrip : pyStrip n = n) (hne : n ≠ "")
    (hnodup : (cfg.catalogPaths.map pyLower).Nodup)
    (hrat : e.rating = some 100)
    (hacc : ∀ kv ∈ acc, kv.1 ≠ n) :
    canonicalize_step cfg (catalog_index cfg) acc e
      = acc ++ [(n, canonEntryOf n e)] := by
  unfold canonicalize_step
  rw [hname]
  simp only [hstrip, if_neg hne,
    match_catalog_path_exact cfg n hmem hstrip hne hnodup, hrat]
  rw [assocFind_eq_none acc n hacc]
  rw [assocSet_append acc n _ hacc]
  have hval : max (max 0 (min ((some (100 : ℚ)).getD 100) 100)) 100 = 100 := by
    simp
  simp only [Option.getD_some, min_self]
  have h100 : max (max (0 : ℚ) 100) 100 = 100 := by
    norm_num
  rw [h100]
  rfl

/-- Folding `canonicalize_step` over already-canonical rating-100
entries with pairwise distinct names appends one dict entry per input
in order. -/
theorem canonical_foldl (cfg : Config)
    (hnodup : (cfg.catalogPaths.map pyLower).Nodup)
    (hpaths : ∀ p ∈ cfg.catalogPaths, pyStrip p = p ∧ p ≠ "") :
    ∀ (items : List RankedEntry) (acc : List (String × RankedEntry)),
    (∀ it ∈ items,
      (∃ n, it.name = some n ∧ n ∈ cfg.catalogPaths) ∧ it.rating = some 100) →
    (items.map RankedEntry.name).Nodup →
    (∀ it ∈ items, ∀ kv ∈ acc, it.name ≠ some kv.1) →
    items.foldl (canonicalize_step cfg (catalog_index cfg)) acc
      = acc ++ items.map
          (fun it => (it.name.getD "", canonEntryOf (it.name.getD "") it)) := by
  intro items
  induction items with
  | nil => intro acc _ _ _; simp
  | cons it0 rest ih =>
    intro acc hitems hnames hdisj
    obtain ⟨⟨n0, hname0, hmem0⟩, hrat0⟩ := hitems it0 (List.mem_cons_self _ _)
    obtain ⟨hstrip0, hne0⟩ := hpaths n0 hmem0
    have hacc0 : ∀ kv ∈ acc, kv.1 ≠ n0 := by
      intro kv hkv hc
      have := hdisj it0 (List.mem_cons_self _ _) kv hkv
      rw [hname0, hc] at this
      exact this rfl
    have hstep := canonicalize_step_canonical cfg acc it0 n0 hname0 hmem0
      hstrip0 hne0 hnodup hrat0 hacc0
    have hnotin : ∀ it' ∈ rest, it'.name ≠ some n0 := by
      intro it' hit' hc
      have hnn : it0.name ∉ rest.map RankedEntry.name :=
        (List.nodup_cons.mp hnames).1
      apply hnn
      rw [hname0, ← hc]
      exact List.mem_map_of_mem RankedEntry.name hit'
    have hdisj' : ∀ it' ∈ rest, ∀ kv ∈ acc ++ [(n0, canonEntryOf n0 it0)],
        it'.name ≠ some kv.1 := by
      intro it' hit' kv hkv
      rcases List.mem_append.mp hkv with hkv' | hkv'
      · exact hdisj it' (List.mem_cons_of_mem it0 hit') kv hkv'
      · rcases List.mem_singleton.mp hkv' with rfl
        exact hnotin it' hit'
    have hrec := ih (acc ++ [(n0, canonEntryOf n0 it0)])
      (fun it' h' => hitems it' (List.mem_cons_of_mem it0 h'))
      (List.nodup_cons.mp hnames).2 hdisj'
    calc (it0 :: rest).foldl (canonicalize_step cfg (catalog_index cfg)) acc
        = rest.foldl (canonicalize_step cfg (catalog_index cfg))
            (canonicalize_step cfg (catalog_index cfg) acc it0) := rfl
      _ = rest.foldl (canonicalize_step cfg (catalog_index cfg))
            (acc ++ [(n0, canonEntryOf n0 it0)]) := by rw [hstep]
      _ = acc ++ [(n0, canonEntryOf n0 it0)] ++ rest.map
            (fun it => (it.name.getD "", canonEntryOf (it.name.getD "") it)) := hrec
      _ = acc ++ (it0 :: rest).map
            (fun it => (it.name.getD "", canonEntryOf (it.name.getD "") it)) := by
          rw [List.map_cons, hname0]
          simp

/-- Inserting an entry whose key is maximal goes to the front. -/
theorem insertByRatingDesc_front (x : RankedEntry) (l : List RankedEntry)
    (h : ∀ e ∈ l, ratingKey e ≤ ratingKey x) :
    insertByRatingDesc x l = x :: l := by
  cases l with
  | nil => rfl
  | cons y ys =>
    unfold insertByRatingDesc
    rw [if_pos (h y (List.mem_cons_self y ys))]

/-- The stable descending sort leaves a constant-key list unchanged. -/
theorem sortByRatingDesc_const (c : ℚ) (l : List RankedEntry)
    (h : ∀ e ∈ l, ratingKey e = c) : sortByRatingDesc l = l := by
  induction l with
  | nil => rfl
  | cons x xs ih =>
    unfold sortByRatingDesc
    rw [ih (fun e he => h e (List.mem_cons_of_mem x he))]
    apply insertByRatingDesc_front
    intro e he
    rw [h e (List.mem_cons_of_mem x he), h x (List.mem_cons_self x xs)]

/-- C4 (amended): `_canonicalize_ranked` is a fixed point on lists that
are already fully canonical: when every entry names a distinct catalog
path (over a catalog whose paths are stripped, non-empty and
case-insensitively distinct), every rating is already 100 and the list
is within the suggestion cap, the names and ratings come back
unchanged and in the same order.  For a merely name-canonical list the
ratings are not preserved: the exact catalog match raises every rating
to 100 (see the counterexample), so idempotence holds only at rating
100. -/
theorem canonicalize_ranked_fixed (cfg : Config) (items : List RankedEntry)
    (hpaths : ∀ p ∈ cfg.catalogPaths, pyStrip p = p ∧ p ≠ "")
    (hnodup : (cfg.catalogPaths.map pyLower).Nodup)
    (hitems : ∀ it ∈ items,
      (∃ n, it.name = some n ∧ n ∈ cfg.catalogPaths) ∧ it.rating = some 100)
    (hnames : (items.map RankedEntry.name).Nodup)
    (hlen : items.length ≤ cfg.maxSuggestions) :
    (canonicalize_ranked cfg items).map (fun e => (e.name, e.rating))
      = items.map (fun e => (e.name, e.rating)) := by
  cases items with
  | nil => rfl
  | cons it0 rest =>
    obtain ⟨⟨n0, hname0, hmem0⟩, hrat0⟩ := hitems it0 (List.mem_cons_self _ _)
    have hidxne : catalog_index cfg ≠ [] := by
      intro hc
      have hm : (n0, catalog_signature n0) ∈ catalog_index cfg :=
        List.mem_map_of_mem (fun q => (q, catalog_signature q)) hmem0
      rw [hc] at hm
      cases hm
    have hidx : (catalog_index cfg).isEmpty = false := by
      simp [List.isEmpty_eq_false, hidxne]
    have hfold := canonical_foldl cfg hnodup hpaths (it0 :: rest) [] hitems hnames
      (by intro it _ kv hkv; cases hkv)
    simp only [canonicalize_ranked, List.isEmpty_cons, Bool.false_eq_true,
      if_false, hidx]
    rw [hfold, List.nil_append, List.map_map]
    have hsort : sortByRatingDesc ((it0 :: rest).map
        (Prod.snd ∘ fun it => (it.name.getD "", canonEntryOf (it.name.getD "") it)))
        = (it0 :: rest).map
          (Prod.snd ∘ fun it => (it.name.getD "", canonEntryOf (it.name.getD "") it)) := by
      apply sortByRatingDesc_const 100
      intro e he
      obtain ⟨it, _, rfl⟩ := List.mem_map.mp he
      rfl
    rw [hsort]
    simp only [List.map_cons, List.isEmpty_cons, Bool.not_false, if_true]
    rw [← List.map_cons
      (Prod.snd ∘ fun it => (it.name.getD "", canonEntryOf (it.name.getD "") it)) it0 rest]
    rw [List.take_of_length_le (by simpa using hlen)]
    rw [List.map_map]
    apply List.map_congr_left
    intro it hit
    obtain ⟨⟨n, hn, _⟩, hr⟩ := hitems it hit
    simp only [Function.comp_apply, hn, hr]
    rfl

/-- C4 counterexample: over the catalog `Finance`, canonicalizing the
already-canonical entry `Finance` with rating 40 returns rating 100,
not the input rating: canonicalization is not rating-preserving on
canonical-name input, refuting the claim as stated. -/
theorem canonicalize_ranked_changes_ratings :
    (canonicalize_ranked cfgFinance
        [{ name := some "Finance", score := some (2/5), rating := some 40,
           reason := none }]).map (fun e => (e.name, e.rating))
      = [(some "Finance", some 100)] ∧
    (canonicalize_ranked cfgFinance
        [{ name := some "Finance", score := some (2/5), rating := some 40,
           reason := none }]).map (fun e => (e.name, e.rating))
      ≠ ([{ name := some "Finance", score := some (2/5), rating := some 40,
            reason := none }] : List RankedEntry).map
          (fun e => (e.name, e.rating)) :=
  ⟨of_decide_eq_true (by with_unfolding_all rfl),
   of_decide_eq_true (by with_unfolding_all rfl)⟩

/-- C4 witness: the fixed-point theorem applied to the canonical entry
`Finance` at rating 100 over the catalog `Finance`. -/
theorem canonicalize_ranked_fixed_witness :
    (∀ p ∈ cfgFinance.catalogPaths, pyStrip p = p ∧ p ≠ "") ∧
    (canonicalize_ranked cfgFinance
        [{ name := some "Finance", score := some 1, rating := some 100,
           reason := none }]).map (fun e => (e.name, e.rating))
      = ([{ name := some "Finance", score := some 1, rating := some 100,
            reason := none }] : List RankedEntry).map
          (fun e => (e.name, e.rating)) := by
  have hcat : cfgFinance.catalogPaths = ["Finance"] :=
    of_decide_eq_true (by with_unfolding_all rfl)
  have hpaths : ∀ p ∈ cfgFinance.catalogPaths, pyStrip p = p ∧ p ≠ "" := by
    rw [hcat]
    intro p hp
    rcases List.mem_singleton.mp hp with rfl
    exact ⟨by decide, by decide⟩
  refine ⟨hpaths, ?_⟩
  apply canonicalize_ranked_fixed cfgFinance _ hpaths
  · rw [hcat]
    decide
  · intro it hit
    rcases List.mem_singleton.mp hit with rfl
    refine ⟨⟨"Finance", rfl, ?_⟩, rfl⟩
    rw [hcat]
    exact List.mem_singleton.mpr rfl
  · decide
  · exact of_decide_eq_true (by with_unfolding_all rfl)


/-- C3 (amended): proposals from the LLM path of `classify_with_model`
are created only when the best refined rating is below the creation
threshold, and their full path never collides case-insensitively with
a ranked candidate path (`_align_proposal_with_matches` drops such
proposals).  The fallback generator invoked by `handle_message` is
gated only by the score of the first ranked entry being below the
creation threshold; it performs no duplicate check against the ranked
paths (see the counterexample). -/
theorem proposal_creation_gating (cfg : Config) (slots : List TagSlot)
    (maxTotal : Nat) (parsed : List (String × JVal))
    (ranked : List (String × ℚ)) (parentHint : Option String) :
    (∀ p, (classify_decision cfg slots maxTotal parsed ranked parentHint).proposal
        = some p →
      best_rating_of (parse_ranked cfg (jGet (JVal.obj parsed) "ranked") ranked) / 100
          < cfg.minNewFolderScore ∧
      (pyStrip p.full_path ≠ "" →
        pyLower (pyStrip p.full_path) ∉
          (ranked_paths (parse_ranked cfg (jGet (JVal.obj parsed) "ranked") ranked)).map
            pyLower)) ∧
    (∀ (refined : List RankedEntry) (subject : String) (sender : Option String)
        (srcFolder : String) (category : Option CategoryInfo) (p : Proposal),
      worker_proposal_step cfg refined none subject sender srcFolder category
          = Except.ok (some p) →
      (refined.head?.bind RankedEntry.score).getD 0 < cfg.minNewFolderScore) := by
  constructor
  · intro p hp
    by_cases hb : best_rating_of
        (parse_ranked cfg (jGet (JVal.obj parsed) "ranked") ranked) < cfg.minMatchScore
    · unfold classify_decision at hp
      simp only [if_pos hb] at hp
      exact Option.noConfusion hp
    · unfold classify_decision at hp
      simp only [if_neg hb] at hp
      rw [Option.bind_eq_some] at hp
      obtain ⟨p0, hnorm, halign⟩ := hp
      constructor
      · rcases hj : jGet (JVal.obj parsed) "proposal" with _ | b | q | st | items | fields <;>
          simp only [normalise_proposal, hj] at hnorm
        all_goals try exact Option.noConfusion hnorm
        by_cases hz : best_rating_of
            (parse_ranked cfg (jGet (JVal.obj parsed) "ranked") ranked) ≠ 0
        · rw [if_pos hz] at hnorm
          by_cases hts : cfg.minNewFolderScore ≤
              best_rating_of (parse_ranked cfg (jGet (JVal.obj parsed) "ranked") ranked) / 100
          · rw [if_pos hts] at hnorm
            exact Option.noConfusion hnorm
          · push_neg at hts
            exact hts
        · rw [if_neg hz] at hnorm
          by_cases hts : cfg.minNewFolderScore ≤ (0 : ℚ)
          · rw [if_pos hts] at hnorm
            exact Option.noConfusion hnorm
          · push_neg at hts hz
            rw [hz, zero_div]
            exact hts
      · intro hne
        unfold align_proposal_with_matches at halign
        by_cases hre : (ranked_paths
            (parse_ranked cfg (jGet (JVal.obj parsed) "ranked") ranked)).isEmpty = true
        · rw [List.isEmpty_iff.mp hre]
          simp
        · rw [Bool.not_eq_true] at hre
          simp only [hre, Bool.not_false, if_true] at halign
          split at halign
          · exact Option.noConfusion halign
          · rename_i hcond
            rw [Option.some.injEq] at halign
            subst halign
            intro hmem
            apply hcond
            rw [Bool.and_eq_true]
            refine ⟨by simpa using hne, ?_⟩
            simpa [List.elem_iff] using hmem
  · intro refined subject sender srcFolder category p hstep
    unfold worker_proposal_step at hstep
    cases hh : refined.head? with
    | none =>
      rw [hh] at hstep
      have hstep2 : (if cfg.minMatchScore ≤ (0 : ℚ) ∧ (none : Option Proposal) = none then
          Except.ok (propose_new_folder_if_needed cfg 0 subject sender
            (some srcFolder) category)
        else Except.ok (none : Option Proposal)) = Except.ok (some p) := hstep
      show (0 : ℚ) < cfg.minNewFolderScore
      split at hstep2
      · unfold propose_new_folder_if_needed at hstep2
        split at hstep2
        · rw [Except.ok.injEq] at hstep2
          exact Option.noConfusion hstep2
        · rename_i hlt
          push_neg at hlt
          exact hlt
      · rw [Except.ok.injEq] at hstep2
        exact Option.noConfusion hstep2
    | some it0 =>
      rw [hh] at hstep
      have hstep2 : (match it0.score with
          | none => Except.error (WorkerStepError.keyError "score")
          | some matchScore =>
            if cfg.minMatchScore ≤ it0.rating.getD (matchScore * 100) ∧
                (none : Option Proposal) = none then
              Except.ok (propose_new_folder_if_needed cfg matchScore subject sender
                (some srcFolder) category)
            else Except.ok (none : Option Proposal)) = Except.ok (some p) := hstep
      cases hs : it0.score with
      | none =>
        rw [hs] at hstep2
        exact Except.noConfusion hstep2
      | some s =>
        rw [hs] at hstep2
        have hstep3 : (if cfg.minMatchScore ≤ it0.rating.getD (s * 100) ∧
              (none : Option Proposal) = none then
            Except.ok (propose_new_folder_if_needed cfg s subject sender
              (some srcFolder) category)
          else Except.ok (none : Option Proposal)) = Except.ok (some p) := hstep2
        show ((Option.some it0).bind RankedEntry.score).getD 0 < cfg.minNewFolderScore
        have hgoal : ((Option.some it0).bind RankedEntry.score).getD 0 = s := by
          simp [Option.bind, hs]
        rw [hgoal]
        split at hstep3
        · unfold propose_new_folder_if_needed at hstep3
          split at hstep3
          · rw [Except.ok.injEq] at hstep3
            exact Option.noConfusion hstep3
          · rename_i hlt
            push_neg at hlt
            exact hlt
        · rw [Except.ok.injEq] at hstep3
          exact Option.noConfusion hstep3

/-- C3 counterexample: with catalog `Projects/Acme`, the ranked
candidate `Projects/Acme` (rating 50, meeting the match threshold but
below the creation threshold 0.78) and subject `Acme` in source folder
`Projects`, the fallback generator creates the proposal with full path
`Projects/Acme` — exactly the already-ranked candidate path — so the
no-duplicate guarantee does not hold for the fallback path, refuting
the claim as stated. -/
theorem fallback_proposal_duplicates_ranked :
    worker_proposal_step cfgProjects refinedAcme none "Acme" none "Projects" none
      = Except.ok (some
        { parent := "Projects", name := "Acme",
          reason := "geringe Übereinstimmung mit bekannten Ordnern; neuer Themenordner aus Betreff \"Acme\"",
          full_path := "Projects/Acme", status := "pending",
          score_hint := 1/2 }) ∧
    ranked_paths refinedAcme = ["Projects/Acme"] :=
  ⟨by with_unfolding_all rfl, by with_unfolding_all rfl⟩

/-- C3 witness: the fallback half of the theorem applied to the
concrete run of the counterexample configuration, discharging the
hypothesis that a proposal was returned. -/
theorem proposal_creation_gating_witness :
    (∃ p, worker_proposal_step cfgProjects refinedAcme none "Acme" none "Projects" none
        = Except.ok (some p)) ∧
    (refinedAcme.head?.bind RankedEntry.score).getD 0 < cfgProjects.minNewFolderScore := by
  have hrun : worker_proposal_step cfgProjects refinedAcme none "Acme" none "Projects" none
      = Except.ok (some
        { parent := "Projects", name := "Acme",
          reason := "geringe Übereinstimmung mit bekannten Ordnern; neuer Themenordner aus Betreff \"Acme\"",
          full_path := "Projects/Acme", status := "pending",
          score_hint := 1/2 }) := by
    with_unfolding_all rfl
  refine ⟨⟨_, hrun⟩, ?_⟩
  exact (proposal_creation_gating cfgProjects [] 3 [] [] none).2
    refinedAcme "Acme" none "Projects" none _ hrun

/-- The dot product computed by `_cosine` is symmetric. -/
theorem listDot_comm (a : List ℝ) : ∀ (b : List ℝ),
    (List.zipWith (· * ·) a b).sum = (List.zipWith (· * ·) b a).sum := by
  induction a with
  | nil => intro b; cases b <;> simp
  | cons x xs ih =>
    intro b
    cases b with
    | nil => simp
    | cons y ys => simp [ih ys, mul_comm]

/-- The sum of squares computed by `_cosine` is non-negative. -/
theorem listSumSq_nonneg (a : List ℝ) : 0 ≤ (a.map (fun x => x * x)).sum := by
  apply List.sum_nonneg
  intro z hz
  obtain ⟨x, _, rfl⟩ := List.mem_map.mp hz
  exact mul_self_nonneg x

/-- Discrete Cauchy-Schwarz inequality for the sums computed by
`_cosine`. -/
theorem listDot_sq_le (a : List ℝ) : ∀ (b : List ℝ),
    ((List.zipWith (· * ·) a b).sum) ^ 2
      ≤ ((a.map (fun x => x * x)).sum) * ((b.map (fun y => y * y)).sum) := by
  induction a with
  | nil => intro b; simp
  | cons x xs ih =>
    intro b
    cases b with
    | nil =>
      simp only [List.zipWith_nil_right, List.sum_nil, List.map_nil, mul_zero]
      norm_num
    | cons y ys =>
      have hA := listSumSq_nonneg xs
      have hB := listSumSq_nonneg ys
      have IH := ih ys
      simp only [List.zipWith_cons_cons, List.sum_cons, List.map_cons]
      by_cases hB0 : ((ys.map (fun y => y * y)).sum) = 0
      · have hS : (List.zipWith (· * ·) xs ys).sum = 0 := by
          have h1 : ((List.zipWith (· * ·) xs ys).sum) ^ 2 ≤ 0 := by
            rw [hB0] at IH
            simpa using IH
          have h2 : ((List.zipWith (· * ·) xs ys).sum) ^ 2 = 0 :=
            le_antisymm h1 (sq_nonneg _)
          exact pow_eq_zero_iff (by norm_num) |>.mp h2
        rw [hB0, hS]
        nlinarith [mul_nonneg hA (mul_self_nonneg y)]
      · have hBpos : 0 < (ys.map (fun y => y * y)).sum :=
          lt_of_le_of_ne hB (Ne.symm hB0)
        have t1 : (0 : ℝ) ≤ (x * ((ys.map (fun y => y * y)).sum)
            - y * (List.zipWith (· * ·) xs ys).sum) ^ 2 := sq_nonneg _
        have hABS : (0 : ℝ) ≤ ((xs.map (fun x => x * x)).sum)
            * ((ys.map (fun y => y * y)).sum)
            - ((List.zipWith (· * ·) xs ys).sum) ^ 2 := by linarith
        have t2 : (0 : ℝ) ≤ (((xs.map (fun x => x * x)).sum)
            * ((ys.map (fun y => y * y)).sum)
            - ((List.zipWith (· * ·) xs ys).sum) ^ 2)
            * ((ys.map (fun y => y * y)).sum) := mul_nonneg hABS hB
        have t3 : (0 : ℝ) ≤ (((xs.map (fun x => x * x)).sum)
            * ((ys.map (fun y => y * y)).sum)
            - ((List.zipWith (· * ·) xs ys).sum) ^ 2)
            * (y * y) := mul_nonneg hABS (mul_self_nonneg y)
        nlinarith [t1, t2, t3, hBpos]

/-- The dot product of component-wise non-negative vectors is
non-negative. -/
theorem listDot_nonneg (a : List ℝ) : ∀ (b : List ℝ),
    (∀ x ∈ a, 0 ≤ x) → (∀ y ∈ b, 0 ≤ y) →
    0 ≤ (List.zipWith (· * ·) a b).sum := by
  induction a with
  | nil => intro b _ _; simp
  | cons x xs ih =>
    intro b ha hb
    cases b with
    | nil => simp
    | cons y ys =>
      simp only [List.zipWith_cons_cons, List.sum_cons]
      have hx := ha x (List.mem_cons_self x xs)
      have hy := hb y (List.mem_cons_self y ys)
      have := ih ys (fun x' hx' => ha x' (List.mem_cons_of_mem x hx'))
        (fun y' hy' => hb y' (List.mem_cons_of_mem y hy'))
      have hxy := mul_nonneg hx hy
      linarith

/-- C9: the cosine similarity of `_cosine` is symmetric, bounded to
[-1, 1] (and non-negative, hence in [0, 1], when all components of
both vectors are non-negative), and returns exactly 0 when either
vector is empty, the lengths differ, or either vector has norm
zero. -/
theorem cosine_spec (a b : List ℝ) :
    cosine a b = cosine b a ∧
    (-1 ≤ cosine a b ∧ cosine a b ≤ 1) ∧
    ((∀ x ∈ a, 0 ≤ x) → (∀ y ∈ b, 0 ≤ y) → 0 ≤ cosine a b) ∧
    (a = [] → cosine a b = 0) ∧
    (b = [] → cosine a b = 0) ∧
    (a.length ≠ b.length → cosine a b = 0) ∧
    (Real.sqrt ((a.map (fun x => x * x)).sum) = 0 → cosine a b = 0) ∧
    (Real.sqrt ((b.map (fun y => y * y)).sum) = 0 → cosine a b = 0) := by
  by_cases hguard : a = [] ∨ b = [] ∨ a.length ≠ b.length
  · have hguard' : b = [] ∨ a = [] ∨ b.length ≠ a.length := by
      rcases hguard with h | h | h
      · exact Or.inr (Or.inl h)
      · exact Or.inl h
      · exact Or.inr (Or.inr (fun hc => h hc.symm))
    have hab : cosine a b = 0 := by
      unfold cosine
      rw [if_pos hguard]
    have hba : cosine b a = 0 := by
      unfold cosine
      rw [if_pos hguard']
    rw [hab, hba]
    norm_num
  · have hguard' : ¬(b = [] ∨ a = [] ∨ b.length ≠ a.length) := by
      push_neg at hguard ⊢
      exact ⟨hguard.2.1, hguard.1, hguard.2.2.symm⟩
    push_neg at hguard
    obtain ⟨ha, hb, hlen⟩ := hguard
    have hA := listSumSq_nonneg a
    have hB := listSumSq_nonneg b
    have hsqA : 0 ≤ Real.sqrt ((a.map (fun x => x * x)).sum) := Real.sqrt_nonneg _
    have hsqB : 0 ≤ Real.sqrt ((b.map (fun y => y * y)).sum) := Real.sqrt_nonneg _
    have hcos_ab : cosine a b =
        (if Real.sqrt ((a.map (fun x => x * x)).sum)
            * Real.sqrt ((b.map (fun y => y * y)).sum) = 0 then 0
        else (List.zipWith (· * ·) a b).sum
          / (Real.sqrt ((a.map (fun x => x * x)).sum)
            * Real.sqrt ((b.map (fun y => y * y)).sum))) := by
      unfold cosine
      rw [if_neg (by push_neg; exact ⟨ha, hb, hlen⟩)]
    have hcos_ba : cosine b a =
        (if Real.sqrt ((b.map (fun y => y * y)).sum)
            * Real.sqrt ((a.map (fun x => x * x)).sum) = 0 then 0
        else (List.zipWith (· * ·) b a).sum
          / (Real.sqrt ((b.map (fun y => y * y)).sum)
            * Real.sqrt ((a.map (fun x => x * x)).sum))) := by
      unfold cosine
      rw [if_neg (by push_neg at hguard' ⊢; exact hguard')]
    by_cases hden : Real.sqrt ((a.map (fun x => x * x)).sum)
        * Real.sqrt ((b.map (fun y => y * y)).sum) = 0
    · have hab : cosine a b = 0 := by rw [hcos_ab, if_pos hden]
      have hba : cosine b a = 0 := by
        rw [hcos_ba, if_pos (by rw [mul_comm]; exact hden)]
      rw [hab, hba]
      norm_num
    · have hdpos : 0 < Real.sqrt ((a.map (fun x => x * x)).sum)
          * Real.sqrt ((b.map (fun y => y * y)).sum) :=
        lt_of_le_of_ne (mul_nonneg hsqA hsqB) (Ne.symm hden)
      have hab : cosine a b = (List.zipWith (· * ·) a b).sum
          / (Real.sqrt ((a.map (fun x => x * x)).sum)
            * Real.sqrt ((b.map (fun y => y * y)).sum)) := by
        rw [hcos_ab, if_neg hden]
      have hba : cosine b a = (List.zipWith (· * ·) b a).sum
          / (Real.sqrt ((b.map (fun y => y * y)).sum)
            * Real.sqrt ((a.map (fun x => x * x)).sum)) := by
        rw [hcos_ba, if_neg (by rw [mul_comm]; exact hden)]
      have hden_sq : (Real.sqrt ((a.map (fun x => x * x)).sum)
          * Real.sqrt ((b.map (fun y => y * y)).sum)) ^ 2
          = ((a.map (fun x => x * x)).sum) * ((b.map (fun y => y * y)).sum) := by
        rw [mul_pow, Real.sq_sqrt hA, Real.sq_sqrt hB]
      have hcs := listDot_sq_le a b
      have hnum_le : (List.zipWith (· * ·) a b).sum
          ≤ Real.sqrt ((a.map (fun x => x * x)).sum)
            * Real.sqrt ((b.map (fun y => y * y)).sum) := by
        nlinarith [hcs, hden_sq, hdpos]
      have hnum_ge : -(Real.sqrt ((a.map (fun x => x * x)).sum)
            * Real.sqrt ((b.map (fun y => y * y)).sum))
          ≤ (List.zipWith (· * ·) a b).sum := by
        nlinarith [hcs, hden_sq, hdpos]
      refine ⟨?_, ⟨?_, ?_⟩, ?_, ?_, ?_, ?_, ?_, ?_⟩
      · rw [hab, hba, listDot_comm, mul_comm]
      · rw [hab]
        rw [le_div_iff hdpos]
        linarith
      · rw [hab]
        rw [div_le_one hdpos]
        exact hnum_le
      · intro hpa hpb
        rw [hab]
        exact div_nonneg (listDot_nonneg a b hpa hpb) (le_of_lt hdpos)
      · intro hc; exact absurd hc ha
      · intro hc; exact absurd hc hb
      · intro hc; exact absurd hc (by simpa using hlen)
      · intro hc
        exact absurd (by rw [hc, zero_mul]) hden
      · intro hc
        exact absurd (by rw [hc, mul_zero]) hden

/-- C9 witness: the specification applied to the concrete vectors
[1, 0] and [1, 0], discharging the non-negativity hypotheses. -/
theorem cosine_spec_witness :
    (∀ x ∈ [(1 : ℝ), 0], 0 ≤ x) ∧
    cosine [(1 : ℝ), 0] [(1 : ℝ), 0] = cosine [(1 : ℝ), 0] [(1 : ℝ), 0] ∧
    0 ≤ cosine [(1 : ℝ), 0] [(1 : ℝ), 0] ∧
    cosine [(1 : ℝ), 0] [(2 : ℝ)] = 0 := by
  have hpos : ∀ x ∈ [(1 : ℝ), 0], 0 ≤ x := by
    intro x hx
    rcases List.mem_cons.mp hx with rfl | hx'
    · norm_num
    · rcases List.mem_singleton.mp hx' with rfl
      norm_num
  refine ⟨hpos, (cosine_spec [(1 : ℝ), 0] [(1 : ℝ), 0]).1, ?_, ?_⟩
  · exact (cosine_spec [(1 : ℝ), 0] [(1 : ℝ), 0]).2.2.1 hpos hpos
  · exact (cosine_spec [(1 : ℝ), 0] [(2 : ℝ)]).2.2.2.2.2.1 (by norm_num)
